import Mathlib

/-!
Shallow embedding of the Floss Bluetooth adapter lifecycle manager
(`system/gd/rust/linux/mgmt/src/state_machine.rs`).

The per-adapter state machine (`StateMachineInternal`), the per-HCI command
timeout tracker (`CommandTimeout`), the event-loop dispatch (`mainloop`) and
the PID-file-name parsing function (`get_hci_index_from_pid_path`) are
translated here as executable Lean definitions:

* `i32` values become `Int` (no arithmetic in the source can overflow:
  the only addition is `restart_count + 1`, guarded by
  `restart_count < RESET_ON_RESTART_COUNT`);
* the `BTreeMap<i32, AdapterState>` becomes a key-sorted association list
  (`mapModify` preserves sortedness, so iteration order is key order, which
  `get_lowest_available_adapter` depends on);
* the `HashMap<i32, Instant>` of `CommandTimeout` becomes an association
  list with insert/remove by key; `Instant` becomes `Nat`;
* process-manager and HCI-reset side effects are collected in an emitted
  `List ProcessAction` in call order;
* `&str` stays `String` (viewed through `String.data`).
-/

/-- Mirrors `ProcessState` (state_machine.rs:35). -/
inductive ProcessState where
  | Off
  | TurningOn
  | On
  | TurningOff
deriving DecidableEq, Repr

/-- Mirrors `AdapterState` (state_machine.rs:826), the per-HCI record. -/
structure AdapterState where
  state : ProcessState
  hci : Int
  pid : Int
  present : Bool
  config_enabled : Bool
  restart_count : Int
deriving DecidableEq, Repr

/-- Mirrors `AdapterState::new` (state_machine.rs:847). -/
def AdapterState.new (hci : Int) : AdapterState :=
  { state := ProcessState.Off
    hci := hci
    present := false
    config_enabled := false
    pid := 0
    restart_count := 0 }

/-- Mirrors `RESET_ON_RESTART_COUNT` (state_machine.rs:25). -/
def RESET_ON_RESTART_COUNT : Int := 2

/-- Side effects issued through the `ProcessManager` trait and
`reset_hci` (which calls `config_util::reset_hci_device`). -/
inductive ProcessAction where
  | Start (hci : Int)
  | Stop (hci : Int)
  | Reset (hci : Int)
deriving DecidableEq, Repr

/-- Mirrors `CommandTimeoutAction` (state_machine.rs:886). -/
inductive CommandTimeoutAction where
  | CancelTimer
  | DoNothing
  | ResetTimer
deriving DecidableEq, Repr

/-- Mirrors `StateMachineTimeoutActions` (state_machine.rs:879). -/
inductive StateMachineTimeoutActions where
  | RetryStart
  | RetryStop
  | Noop
deriving DecidableEq, Repr

/-- Mirrors `AdapterChangeAction` (state_machine.rs:894). -/
inductive AdapterChangeAction where
  | DoNothing
  | NewDefaultAdapter (hci : Int)
deriving DecidableEq, Repr

/-- `BTreeMap::get` on the key-sorted association list. -/
def mapGet (m : List (Int × AdapterState)) (k : Int) : Option AdapterState :=
  match m with
  | [] => none
  | (k', v) :: rest => if k = k' then some v else mapGet rest k

/-- Replace the value of an existing key in place. -/
def mapReplace (m : List (Int × AdapterState)) (k : Int) (v : AdapterState) :
    List (Int × AdapterState) :=
  match m with
  | [] => []
  | (k', v') :: rest =>
    if k = k' then (k, v) :: rest else (k', v') :: mapReplace rest k v

/-- Insert a (fresh) key at its sorted position. -/
def mapInsertSorted (m : List (Int × AdapterState)) (k : Int)
    (v : AdapterState) : List (Int × AdapterState) :=
  match m with
  | [] => [(k, v)]
  | (k', v') :: rest =>
    if k < k' then (k, v) :: (k', v') :: rest
    else (k', v') :: mapInsertSorted rest k v

/-- `BTreeMap::entry(k).or_insert(AdapterState::new(k))` followed by an
in-place mutation `f` of the entry: an existing key is modified in place,
a missing key is inserted at its sorted position with `f` applied to
`AdapterState::new(k)`. -/
def mapModify (m : List (Int × AdapterState)) (k : Int)
    (f : AdapterState → AdapterState) : List (Int × AdapterState) :=
  match mapGet m k with
  | some v => mapReplace m k (f v)
  | none => mapInsertSorted m k (f (AdapterState.new k))

/-- Mirrors `StateMachineInternal` (state_machine.rs:860): the shared
atomics (`floss_enabled`, `default_adapter`) and the `BTreeMap` behind the
mutex are inlined as plain fields, since the event loop is their only
writer. The process manager is replaced by the emitted action list. -/
structure StateMachineInternal where
  floss_enabled : Bool
  default_adapter : Int
  desired_adapter : Int
  state : List (Int × AdapterState)
deriving DecidableEq, Repr

namespace StateMachineInternal

/-- Mirrors `StateMachineInternal::new` (state_machine.rs:901). -/
def new (floss_enabled : Bool) (desired_adapter : Int) : StateMachineInternal :=
  { floss_enabled := floss_enabled
    default_adapter := desired_adapter
    desired_adapter := desired_adapter
    state := [] }

/-- Mirrors `is_known` (state_machine.rs:923). -/
def is_known (m : StateMachineInternal) (hci : Int) : Bool :=
  (mapGet m.state hci).isSome

/-- Mirrors `get_process_state` (state_machine.rs:943):
`get_state(hci, |a| Some(a.state)).unwrap_or(ProcessState::Off)`. -/
def get_process_state (m : StateMachineInternal) (hci : Int) : ProcessState :=
  ((mapGet m.state hci).map (fun a => a.state)).getD ProcessState.Off

/-- `get_state(hci, |a| Some(a.present)).unwrap_or(false)`. -/
def present_of (m : StateMachineInternal) (hci : Int) : Bool :=
  ((mapGet m.state hci).map (fun a => a.present)).getD false

/-- `get_state(hci, |a| Some(a.config_enabled)).unwrap_or(false)`. -/
def config_enabled_of (m : StateMachineInternal) (hci : Int) : Bool :=
  ((mapGet m.state hci).map (fun a => a.config_enabled)).getD false

/-- `get_state(hci, |a| Some(a.restart_count)).unwrap_or(0)`. -/
def restart_count_of (m : StateMachineInternal) (hci : Int) : Int :=
  ((mapGet m.state hci).map (fun a => a.restart_count)).getD 0

/-- Mirrors `modify_state` (state_machine.rs:957). -/
def modify_state (m : StateMachineInternal) (hci : Int)
    (f : AdapterState → AdapterState) : StateMachineInternal :=
  { m with state := mapModify m.state hci f }

/-- Mirrors `get_lowest_available_adapter` (state_machine.rs:973): the
first present adapter in key order. -/
def get_lowest_available_adapter (m : StateMachineInternal) : Option Int :=
  ((m.state.filter (fun p => p.2.present)).map (fun p => p.2.hci)).head?

/-- Mirrors `set_desired_default_adapter` (state_machine.rs:986). -/
def set_desired_default_adapter (m : StateMachineInternal) (adapter : Int) :
    AdapterChangeAction × StateMachineInternal :=
  let m1 := { m with desired_adapter := adapter }
  if m1.default_adapter ≠ adapter ∧ present_of m1 adapter = true then
    (AdapterChangeAction.NewDefaultAdapter adapter,
      { m1 with default_adapter := adapter })
  else
    (AdapterChangeAction.DoNothing, m1)

/-- Mirrors `action_start_bluetooth` (state_machine.rs:1003). -/
def action_start_bluetooth (m : StateMachineInternal) (hci : Int) :
    CommandTimeoutAction × StateMachineInternal × List ProcessAction :=
  let state := get_process_state m hci
  let present := present_of m hci
  let floss_enabled := m.floss_enabled
  if (state = ProcessState.Off ∨ state = ProcessState.TurningOn)
      ∧ present = true ∧ floss_enabled = true then
    (CommandTimeoutAction.ResetTimer,
      modify_state m hci (fun s => { s with state := ProcessState.TurningOn }),
      [ProcessAction.Start hci])
  else
    (CommandTimeoutAction.DoNothing, m, [])

/-- Mirrors `action_stop_bluetooth` (state_machine.rs:1025). -/
def action_stop_bluetooth (m : StateMachineInternal) (hci : Int) :
    CommandTimeoutAction × StateMachineInternal × List ProcessAction :=
  if ¬ (is_known m hci = true) then
    (CommandTimeoutAction.DoNothing, m, [])
  else
    match get_process_state m hci with
    | ProcessState.On =>
      (CommandTimeoutAction.ResetTimer,
        modify_state m hci (fun s => { s with state := ProcessState.TurningOff }),
        [ProcessAction.Stop hci])
    | ProcessState.TurningOn =>
      (CommandTimeoutAction.CancelTimer,
        modify_state m hci (fun s => { s with state := ProcessState.Off }),
        [ProcessAction.Stop hci])
    | _ => (CommandTimeoutAction.DoNothing, m, [])

/-- Mirrors `action_on_bluetooth_started` (state_machine.rs:1049). -/
def action_on_bluetooth_started (m : StateMachineInternal) (pid hci : Int) :
    CommandTimeoutAction × StateMachineInternal :=
  let m1 :=
    if is_known m hci = true then m
    else modify_state m hci (fun s => { s with state := ProcessState.Off })
  let m2 := modify_state m1 hci (fun s =>
    { s with state := ProcessState.On, restart_count := 0, pid := pid })
  (CommandTimeoutAction.CancelTimer, m2)

/-- Mirrors `action_on_bluetooth_stopped` (state_machine.rs:1066). -/
def action_on_bluetooth_stopped (m : StateMachineInternal) (hci : Int) :
    CommandTimeoutAction × StateMachineInternal × List ProcessAction :=
  let state := get_process_state m hci
  let config_enabled := config_enabled_of m hci
  let floss_enabled := m.floss_enabled
  match state with
  | ProcessState.TurningOff =>
    (CommandTimeoutAction.CancelTimer,
      modify_state m hci (fun s => { s with state := ProcessState.Off }), [])
  | ProcessState.On =>
    if floss_enabled = true ∧ config_enabled = true then
      let restart_count := restart_count_of m hci
      if restart_count ≥ RESET_ON_RESTART_COUNT then
        (CommandTimeoutAction.CancelTimer,
          modify_state m hci (fun s =>
            { s with state := ProcessState.Off, restart_count := 0 }),
          [ProcessAction.Reset hci])
      else
        (CommandTimeoutAction.ResetTimer,
          modify_state m hci (fun s =>
            { s with state := ProcessState.TurningOn,
                     restart_count := s.restart_count + 1 }),
          [ProcessAction.Start hci])
    else
      (CommandTimeoutAction.CancelTimer,
        modify_state m hci (fun s => { s with state := ProcessState.Off }), [])
  | _ =>
    (CommandTimeoutAction.CancelTimer,
      modify_state m hci (fun s => { s with state := ProcessState.Off }), [])

/-- Mirrors `action_on_command_timeout` (state_machine.rs:1125). -/
def action_on_command_timeout (m : StateMachineInternal) (hci : Int) :
    StateMachineTimeoutActions × StateMachineInternal × List ProcessAction :=
  let state := get_process_state m hci
  let floss_enabled := m.floss_enabled
  let config_enabled := config_enabled_of m hci
  match state with
  | ProcessState.TurningOn =>
    if ¬ (floss_enabled = true) then
      (StateMachineTimeoutActions.Noop,
        modify_state m hci (fun s => { s with state := ProcessState.Off }),
        [ProcessAction.Stop hci])
    else if config_enabled = true then
      let restart_count := restart_count_of m hci
      if restart_count ≥ RESET_ON_RESTART_COUNT then
        (StateMachineTimeoutActions.Noop,
          modify_state m hci (fun s =>
            { s with state := ProcessState.Off, restart_count := 0 }),
          [ProcessAction.Reset hci])
      else
        (StateMachineTimeoutActions.RetryStart,
          modify_state m hci (fun s =>
            { s with state := ProcessState.TurningOn,
                     restart_count := s.restart_count + 1 }),
          [ProcessAction.Stop hci, ProcessAction.Start hci])
    else
      (StateMachineTimeoutActions.Noop, m, [])
  | ProcessState.TurningOff =>
    (StateMachineTimeoutActions.RetryStop, m, [ProcessAction.Stop hci])
  | _ => (StateMachineTimeoutActions.Noop, m, [])

/-- Mirrors `action_on_hci_presence_changed` (state_machine.rs:1192).
The `CommandTimeoutAction` returned by the inner `action_start_bluetooth`
call is discarded, exactly as in the source (state_machine.rs:1219). -/
def action_on_hci_presence_changed (m : StateMachineInternal) (hci : Int)
    (present : Bool) :
    (ProcessState × AdapterChangeAction) × StateMachineInternal × List ProcessAction :=
  let prev_present := present_of m hci
  let prev_state := get_process_state m hci
  if prev_present = present then
    ((prev_state, AdapterChangeAction.DoNothing), m, [])
  else
    let m1 := modify_state m hci (fun a => { a with present := present })
    let floss_enabled := m1.floss_enabled
    let step2 : ProcessState × StateMachineInternal × List ProcessAction :=
      match (mapGet m1.state hci).map (fun a => (a.state, a.config_enabled)) with
      | some (ProcessState.Off, true) =>
        if floss_enabled = true ∧ present = true then
          let mA := modify_state m1 hci (fun a => { a with restart_count := 0 })
          let r := action_start_bluetooth mA hci
          (ProcessState.TurningOn, r.2.1, r.2.2)
        else (prev_state, m1, [])
      | _ => (prev_state, m1, [])
    let next_state := step2.1
    let m2 := step2.2.1
    let acts := step2.2.2
    let default_adapter := m2.default_adapter
    let desired_adapter := m2.desired_adapter
    let change :=
      if present = true ∧ hci = desired_adapter ∧ ¬ (hci = default_adapter) then
        AdapterChangeAction.NewDefaultAdapter desired_adapter
      else if present = false ∧ hci = default_adapter then
        match get_lowest_available_adapter m2 with
        | some v => AdapterChangeAction.NewDefaultAdapter v
        | none => AdapterChangeAction.DoNothing
      else
        AdapterChangeAction.DoNothing
    ((next_state, change), m2, acts)

end StateMachineInternal

/-- `HashMap::get` on the association list (keys unique by construction). -/
def hmGet (m : List (Int × Nat)) (k : Int) : Option Nat :=
  match m with
  | [] => none
  | (k', v) :: rest => if k = k' then some v else hmGet rest k

/-- `HashMap::entry(k).and_modify(set v).or_insert(v)`. -/
def hmInsert (m : List (Int × Nat)) (k : Int) (v : Nat) : List (Int × Nat) :=
  match m with
  | [] => [(k, v)]
  | (k', v') :: rest =>
    if k = k' then (k, v) :: rest else (k', v') :: hmInsert rest k v

/-- `HashMap::remove(k)`. -/
def hmRemove (m : List (Int × Nat)) (k : Int) : List (Int × Nat) :=
  match m with
  | [] => []
  | (k', v') :: rest =>
    if k' = k then hmRemove rest k else (k', v') :: hmRemove rest k

/-- Mirrors `CommandTimeout` (state_machine.rs:450). `Instant` is a `Nat`;
the `Alarm` waker is modelled by `waker`, the duration passed to the most
recent `waker.reset` call. -/
structure CommandTimeout where
  per_hci_timeout : List (Int × Nat)
  expired : Bool
  duration : Nat
  waker : Nat
deriving DecidableEq, Repr

namespace CommandTimeout

/-- Mirrors `CommandTimeout::new` (state_machine.rs:458); the command
timeout duration (7 s) is kept abstract as `duration`. -/
def new (duration : Nat) : CommandTimeout :=
  { per_hci_timeout := [], expired := true, duration := duration, waker := 0 }

/-- Mirrors `set_next` (state_machine.rs:468); `now` is `Instant::now()`. -/
def set_next (ct : CommandTimeout) (now : Nat) (hci : Int) : CommandTimeout :=
  let wake := now + ct.duration
  let ct1 := { ct with per_hci_timeout := hmInsert ct.per_hci_timeout hci wake }
  if ct1.expired = true then
    { ct1 with waker := ct1.duration, expired := false }
  else ct1

/-- Mirrors `cancel` (state_machine.rs:479). -/
def cancel (ct : CommandTimeout) (hci : Int) : CommandTimeout :=
  { ct with per_hci_timeout := hmRemove ct.per_hci_timeout hci }

/-- Mirrors `expire` (state_machine.rs:485); `now` is `Instant::now()`. -/
def expire (ct : CommandTimeout) (now : Nat) : List Int × CommandTimeout :=
  let completed :=
    (ct.per_hci_timeout.filter (fun p => p.2 < now)).map (fun p => p.1)
  let next_expiry := ct.per_hci_timeout.foldl
    (fun acc p => if p.2 < now then acc else if p.2 < acc then p.2 else acc)
    (now + ct.duration)
  let remaining := completed.foldl (fun m h => hmRemove m h) ct.per_hci_timeout
  if ¬ (remaining.isEmpty = true) then
    (completed,
      { ct with per_hci_timeout := remaining,
                waker := next_expiry - now, expired := false })
  else
    (completed, { ct with per_hci_timeout := remaining, expired := true })

/-- Mirrors `handle_timeout_action` (state_machine.rs:516). -/
def handle_timeout_action (ct : CommandTimeout) (now : Nat) (hci : Int)
    (action : CommandTimeoutAction) : CommandTimeout :=
  match action with
  | CommandTimeoutAction.ResetTimer => set_next ct now hci
  | CommandTimeoutAction.CancelTimer => cancel ct hci
  | CommandTimeoutAction.DoNothing => ct

end CommandTimeout

/-- The state owned by one turn of `mainloop` (state_machine.rs:525): the
state machine plus the shared `CommandTimeout`. -/
structure Combined where
  sm : StateMachineInternal
  ct : CommandTimeout
deriving DecidableEq, Repr

/-- The `Message` variants whose handling touches `Combined`
(state_machine.rs:62; `PidChange` only re-emits `BluetoothStarted` /
`BluetoothStopped` messages and `CallbackDisconnected` touches neither
component, so they are omitted). -/
inductive Event where
  | StartBluetooth (hci : Int)
  | StopBluetooth (hci : Int)
  | BluetoothStarted (pid hci : Int)
  | BluetoothStopped (hci : Int)
  | HciDevicePresence (hci : Int) (present : Bool)
  | CommandTimeoutMsg (hci : Int)
  | SetDesiredDefaultAdapter (hci : Int)
deriving DecidableEq, Repr

open StateMachineInternal in
/-- One turn of `mainloop` (state_machine.rs:566): dispatches a message,
applies the returned `CommandTimeoutAction` to `CommandTimeout` (note the
`HciDevicePresence` arm applies none, state_machine.rs:608), and stores a
`NewDefaultAdapter` into `default_adapter`. Notification callbacks have no
effect on `Combined` and are dropped. -/
def step (c : Combined) (now : Nat) (e : Event) : Combined :=
  match e with
  | Event.StartBluetooth i =>
    let r := action_start_bluetooth c.sm i
    { sm := r.2.1, ct := CommandTimeout.handle_timeout_action c.ct now i r.1 }
  | Event.StopBluetooth i =>
    let r := action_stop_bluetooth c.sm i
    { sm := r.2.1, ct := CommandTimeout.handle_timeout_action c.ct now i r.1 }
  | Event.BluetoothStarted pid i =>
    let r := action_on_bluetooth_started c.sm pid i
    { sm := r.2, ct := CommandTimeout.handle_timeout_action c.ct now i r.1 }
  | Event.BluetoothStopped i =>
    let r := action_on_bluetooth_stopped c.sm i
    { sm := r.2.1, ct := CommandTimeout.handle_timeout_action c.ct now i r.1 }
  | Event.HciDevicePresence i p =>
    let r := action_on_hci_presence_changed c.sm i p
    let sm1 :=
      match r.1.2 with
      | AdapterChangeAction.NewDefaultAdapter n =>
        { r.2.1 with default_adapter := n }
      | AdapterChangeAction.DoNothing => r.2.1
    { sm := sm1, ct := c.ct }
  | Event.CommandTimeoutMsg i =>
    let r := action_on_command_timeout c.sm i
    match r.1 with
    | StateMachineTimeoutActions.Noop => { sm := r.2.1, ct := c.ct }
    | _ => { sm := r.2.1, ct := CommandTimeout.set_next c.ct now i }
  | Event.SetDesiredDefaultAdapter i =>
    let r := set_desired_default_adapter c.sm i
    let sm1 :=
      match r.1 with
      | AdapterChangeAction.NewDefaultAdapter n =>
        { r.2 with default_adapter := n }
      | AdapterChangeAction.DoNothing => r.2
    { sm := sm1, ct := c.ct }

/-- Character class `[0-9]`. -/
def isDigitChar (c : Char) : Bool :=
  decide ('0' ≤ c) && decide (c ≤ '9')

/-- Numeric value of a decimal digit string. -/
def digitsToNat (ds : List Char) : Nat :=
  ds.foldl (fun acc c => 10 * acc + (c.toNat - Char.toNat '0')) 0

/-- Rust `str::parse::<i32>` on a non-empty all-digit capture: succeeds
exactly when the value fits in `i32`. -/
def parseI32 (ds : List Char) : Option Int :=
  if digitsToNat ds ≤ 2147483647 then some (Int.ofNat (digitsToNat ds)) else none

/-- Matches a literal against the front of a char list, returning the rest. -/
def stripLit : List Char → List Char → Option (List Char)
  | [], s => some s
  | _ :: _, [] => none
  | c :: cs, x :: xs => if x = c then stripLit cs xs else none

/-- The trailing `.pid` of the regex: `.` matches ANY single character
(the dot in the source pattern `bluetooth([0-9]+).pid` is not escaped),
then the literal `pid`; the rest of the input is unconstrained. -/
def dotPidAt (s : List Char) : Bool :=
  match s with
  | [] => false
  | _ :: rest => (stripLit ['p', 'i', 'd'] rest).isSome

/-- Greedy-with-backtracking `([0-9]+)`: `ds` is the maximal digit run,
`rest` what follows it; try keeping `k` digits for `k = |ds|` down to `1`
and return the first capture for which `.pid` matches afterwards. -/
def tryDigits (ds rest : List Char) : Nat → Option (List Char)
  | 0 => none
  | k + 1 =>
    if dotPidAt (ds.drop (k + 1) ++ rest) then some (ds.take (k + 1))
    else tryDigits ds rest k

/-- Attempt to match `bluetooth([0-9]+).pid` at the start of `s`; returns
the digit capture of the regex-preferred (greedy, backtracking) match. -/
def matchAt (s : List Char) : Option (List Char) :=
  match stripLit ['b', 'l', 'u', 'e', 't', 'o', 'o', 't', 'h'] s with
  | none => none
  | some rest =>
    let ds := rest.takeWhile isDigitChar
    if ds.isEmpty then none
    else tryDigits ds (rest.dropWhile isDigitChar) ds.length

/-- Leftmost match: try `matchAt` at each start position, left to right. -/
def findCapture : List Char → Option (List Char)
  | [] => none
  | c :: cs =>
    match matchAt (c :: cs) with
    | some d => some d
    | none => findCapture cs

/-- Mirrors `get_hci_index_from_pid_path` (state_machine.rs:223):
`Regex::new(r"bluetooth([0-9]+).pid")`, `captures(path)?.get(1)?`,
`.as_str().parse().ok()`. The Rust regex crate finds the leftmost match,
with greedy (backtracking) semantics for `[0-9]+`, and `.` matching any
character; the whole input is searched, not anchored. -/
def get_hci_index_from_pid_path (path : String) : Option Int :=
  match findCapture path.data with
  | some ds => parseI32 ds
  | none => none

/-! ### Association-list lemmas -/

theorem mapGet_mapReplace (m : List (Int × AdapterState)) (k : Int)
    (v : AdapterState) (j : Int) (w : AdapterState) (hk : mapGet m k = some w) :
    mapGet (mapReplace m k v) j = if j = k then some v else mapGet m j := by
  induction m with
  | nil => simp [mapGet] at hk
  | cons p rest ih =>
    obtain ⟨k', v'⟩ := p
    by_cases hkk : k = k'
    · subst hkk
      simp [mapReplace, mapGet]
      by_cases hjk : j = k
      · subst hjk
        simp [mapGet]
      · simp [mapGet, hjk]
    · simp [mapGet, hkk] at hk
      simp [mapReplace, hkk]
      by_cases hjk' : j = k'
      · subst hjk'
        have hjk : ¬ j = k := fun h => hkk (h ▸ rfl)
        simp [mapGet, hjk]
      · simp [mapGet, hjk', ih hk]

theorem mapGet_mapInsertSorted (m : List (Int × AdapterState)) (k : Int)
    (v : AdapterState) (j : Int) (hk : mapGet m k = none) :
    mapGet (mapInsertSorted m k v) j = if j = k then some v else mapGet m j := by
  induction m with
  | nil => by_cases hjk : j = k <;> simp [mapInsertSorted, mapGet, hjk]
  | cons p rest ih =>
    obtain ⟨k', v'⟩ := p
    by_cases hkk : k = k'
    · simp [mapGet, hkk] at hk
    · simp [mapGet, hkk] at hk
      simp only [mapInsertSorted]
      by_cases hlt : k < k'
      · simp only [if_pos hlt]
        by_cases hjk : j = k
        · subst hjk
          simp [mapGet, hkk]
        · simp [mapGet, hjk]
      · simp only [if_neg hlt]
        by_cases hjk' : j = k'
        · subst hjk'
          have hjk : ¬ j = k := fun h => hkk (h ▸ rfl)
          simp [mapGet, hjk]
        · simp [mapGet, hjk', ih hk]

theorem mapGet_mapModify (m : List (Int × AdapterState)) (k : Int)
    (f : AdapterState → AdapterState) (j : Int) :
    mapGet (mapModify m k f) j =
      if j = k then some (f ((mapGet m k).getD (AdapterState.new k)))
      else mapGet m j := by
  unfold mapModify
  cases hk : mapGet m k with
  | some w => simpa using mapGet_mapReplace m k (f w) j w hk
  | none => simpa using mapGet_mapInsertSorted m k (f (AdapterState.new k)) j hk

theorem hmGet_hmInsert (m : List (Int × Nat)) (k : Int) (v : Nat) (j : Int) :
    hmGet (hmInsert m k v) j = if j = k then some v else hmGet m j := by
  induction m with
  | nil => by_cases hjk : j = k <;> simp [hmInsert, hmGet, hjk]
  | cons p rest ih =>
    obtain ⟨k', v'⟩ := p
    by_cases hkk : k = k'
    · subst hkk
      simp only [hmInsert, if_pos rfl]
      by_cases hjk : j = k
      · subst hjk
        simp [hmGet]
      · simp [hmGet, hjk]
    · simp only [hmInsert, if_neg hkk]
      by_cases hjk' : j = k'
      · subst hjk'
        have hjk : ¬ j = k := fun h => hkk (h ▸ rfl)
        simp [hmGet, hjk]
      · simp [hmGet, hjk', ih]

theorem hmGet_hmRemove (m : List (Int × Nat)) (k : Int) (j : Int) :
    hmGet (hmRemove m k) j = if j = k then none else hmGet m j := by
  induction m with
  | nil => by_cases hjk : j = k <;> simp [hmRemove, hmGet, hjk]
  | cons p rest ih =>
    obtain ⟨k', v'⟩ := p
    by_cases hkk : k' = k
    · subst hkk
      simp only [hmRemove, if_pos rfl]
      by_cases hjk : j = k'
      · subst hjk
        simpa [hmGet] using ih
      · simpa [hmGet, hjk] using ih
    · simp only [hmRemove, if_neg hkk]
      by_cases hjk' : j = k'
      · subst hjk'
        simp [hmGet, hkk]
      · simp [hmGet, hjk', ih]

/-! ### Machine-level helper lemmas -/

namespace StateMachineInternal

/-- The adapter record `modify_state` applies its mutation to. -/
def entry_or_new (m : StateMachineInternal) (hci : Int) : AdapterState :=
  (mapGet m.state hci).getD (AdapterState.new hci)

theorem mapGet_modify_state (m : StateMachineInternal) (k : Int)
    (f : AdapterState → AdapterState) (j : Int) :
    mapGet (modify_state m k f).state j =
      if j = k then some (f (entry_or_new m k)) else mapGet m.state j := by
  simp [modify_state, entry_or_new, mapGet_mapModify]

theorem get_process_state_modify (m : StateMachineInternal) (k : Int)
    (f : AdapterState → AdapterState) (j : Int) :
    get_process_state (modify_state m k f) j =
      if j = k then (f (entry_or_new m k)).state else get_process_state m j := by
  simp only [get_process_state, mapGet_modify_state]
  by_cases hjk : j = k <;> simp [hjk]

@[simp] theorem modify_state_floss (m : StateMachineInternal) (k : Int)
    (f : AdapterState → AdapterState) :
    (modify_state m k f).floss_enabled = m.floss_enabled := rfl

@[simp] theorem modify_state_default (m : StateMachineInternal) (k : Int)
    (f : AdapterState → AdapterState) :
    (modify_state m k f).default_adapter = m.default_adapter := rfl

@[simp] theorem modify_state_desired (m : StateMachineInternal) (k : Int)
    (f : AdapterState → AdapterState) :
    (modify_state m k f).desired_adapter = m.desired_adapter := rfl

end StateMachineInternal

namespace CommandTimeout

theorem set_next_map (ct : CommandTimeout) (now : Nat) (hci : Int) :
    (set_next ct now hci).per_hci_timeout =
      hmInsert ct.per_hci_timeout hci (now + ct.duration) := by
  simp only [set_next]
  split <;> rfl

theorem cancel_map (ct : CommandTimeout) (hci : Int) :
    (cancel ct hci).per_hci_timeout = hmRemove ct.per_hci_timeout hci := rfl

theorem hmGet_set_next (ct : CommandTimeout) (now : Nat) (hci j : Int) :
    hmGet (set_next ct now hci).per_hci_timeout j =
      if j = hci then some (now + ct.duration) else hmGet ct.per_hci_timeout j := by
  rw [set_next_map, hmGet_hmInsert]

theorem hmGet_cancel (ct : CommandTimeout) (hci j : Int) :
    hmGet (cancel ct hci).per_hci_timeout j =
      if j = hci then none else hmGet ct.per_hci_timeout j := by
  rw [cancel_map, hmGet_hmRemove]

end CommandTimeout

open StateMachineInternal CommandTimeout

/-! ### Claim C8 -/

/-- Claim C8: for every HCI index and pid, `on_daemon_started`
unconditionally results in state `On` with the `pid` field set to the given
pid and `restart_count` equal to 0, returns `CancelTimer`, and creates the
`AdapterState` entry (in particular when the HCI index was previously
unknown, the returned map has an entry for it). -/
theorem C8_daemon_started_thm (m : StateMachineInternal) (pid hci : Int) :
    (action_on_bluetooth_started m pid hci).1 = CommandTimeoutAction.CancelTimer ∧
    ∃ a : AdapterState,
      mapGet (action_on_bluetooth_started m pid hci).2.state hci = some a ∧
      a.state = ProcessState.On ∧ a.pid = pid ∧ a.restart_count = 0 := by
  refine ⟨rfl, ?_⟩
  simp only [action_on_bluetooth_started]
  rw [mapGet_modify_state]
  simp

/-! ### Claim C9 -/

/-- Claim C9: `on_presence_changed(hci, true)` is idempotent: when the
adapter is already marked present, the call returns the previous process
state with a `DoNothing` default-adapter action, emits no process action,
and leaves the whole machine (every adapter field and the global
`default_adapter`) unchanged. -/
theorem C9_presence_idempotent_thm (m : StateMachineInternal) (hci : Int)
    (a : AdapterState) (ha : mapGet m.state hci = some a)
    (hp : a.present = true) :
    action_on_hci_presence_changed m hci true =
      ((a.state, AdapterChangeAction.DoNothing), m, []) := by
  have h1 : present_of m hci = true := by simp [present_of, ha, hp]
  have h2 : get_process_state m hci = a.state := by simp [get_process_state, ha]
  simp [action_on_hci_presence_changed, h1, h2]

/-- Concrete adapter already marked present (state `On`). -/
def aC9 : AdapterState :=
  { state := ProcessState.On, hci := 0, pid := 42, present := true,
    config_enabled := true, restart_count := 0 }

/-- Concrete machine for the C9 witness. -/
def mC9 : StateMachineInternal :=
  { floss_enabled := true, default_adapter := 0, desired_adapter := 0,
    state := [(0, aC9)] }

/-- Witness for C9 at a concrete machine. -/
theorem C9_presence_idempotent_witness :
    action_on_hci_presence_changed mC9 0 true =
      ((ProcessState.On, AdapterChangeAction.DoNothing), mC9, []) :=
  C9_presence_idempotent_thm mC9 0 aC9 (by decide) (by decide)

/-! ### Claim C10 -/

/-- Claim C10: for every adapter in state `TurningOn` with `floss_enabled`
true and `config_enabled` false, `on_timeout` returns `Noop`, emits no
`Stop`, `Start` or `Reset` process action, and leaves the machine (hence
every field of the adapter state, which stays `TurningOn` with the same
`restart_count`) unchanged — the catch-all arm of
`action_on_command_timeout`. -/
theorem C10_timeout_frame_thm (m : StateMachineInternal) (hci : Int)
    (a : AdapterState) (ha : mapGet m.state hci = some a)
    (hs : a.state = ProcessState.TurningOn)
    (hf : m.floss_enabled = true) (hc : a.config_enabled = false) :
    action_on_command_timeout m hci = (StateMachineTimeoutActions.Noop, m, []) := by
  have h2 : get_process_state m hci = ProcessState.TurningOn := by
    simp [get_process_state, ha, hs]
  have h3 : config_enabled_of m hci = false := by
    simp [config_enabled_of, ha, hc]
  simp [action_on_command_timeout, h2, h3, hf]

/-- Concrete adapter in `TurningOn` with config disabled. -/
def aC10 : AdapterState :=
  { state := ProcessState.TurningOn, hci := 0, pid := 0, present := true,
    config_enabled := false, restart_count := 1 }

/-- Concrete machine for the C10 witness. -/
def mC10 : StateMachineInternal :=
  { floss_enabled := true, default_adapter := 0, desired_adapter := 0,
    state := [(0, aC10)] }

/-- Witness for C10 at a concrete machine. -/
theorem C10_timeout_frame_witness :
    action_on_command_timeout mC10 0 = (StateMachineTimeoutActions.Noop, mC10, []) :=
  C10_timeout_frame_thm mC10 0 aC10 (by decide) (by decide) (by decide) (by decide)

/-! ### Claim C6 -/

/-- Claim C6: `start_adapter` in state `Off` or `TurningOn` with `present`
and `floss_enabled` true sets the adapter state to `TurningOn` (touching
no other adapter and no other field), emits exactly one `Start` action and
returns `ResetTimer`; in every other combination it returns `DoNothing`,
emits no process action and leaves the machine unchanged — in particular
on a never-seen HCI (which reads as state `Off`). -/
theorem C6_start_adapter_thm (m : StateMachineInternal) (hci : Int) :
    (((get_process_state m hci = ProcessState.Off ∨
        get_process_state m hci = ProcessState.TurningOn) ∧
       present_of m hci = true ∧ m.floss_enabled = true) →
      (action_start_bluetooth m hci).1 = CommandTimeoutAction.ResetTimer ∧
      (action_start_bluetooth m hci).2.2 = [ProcessAction.Start hci] ∧
      mapGet (action_start_bluetooth m hci).2.1.state hci =
        some { entry_or_new m hci with state := ProcessState.TurningOn } ∧
      (∀ j : Int, ¬ j = hci →
        mapGet (action_start_bluetooth m hci).2.1.state j = mapGet m.state j)) ∧
    (¬ ((get_process_state m hci = ProcessState.Off ∨
         get_process_state m hci = ProcessState.TurningOn) ∧
        present_of m hci = true ∧ m.floss_enabled = true) →
      action_start_bluetooth m hci = (CommandTimeoutAction.DoNothing, m, [])) ∧
    (is_known m hci = false →
      action_start_bluetooth m hci = (CommandTimeoutAction.DoNothing, m, []) ∧
      get_process_state m hci = ProcessState.Off) := by
  refine ⟨?_, ?_, ?_⟩
  · intro hcond
    simp only [action_start_bluetooth, if_pos hcond]
    refine ⟨by trivial, by trivial, ?_, ?_⟩
    · rw [mapGet_modify_state]
      simp
    · intro j hj
      rw [mapGet_modify_state, if_neg hj]
  · intro hcond
    simp only [action_start_bluetooth, if_neg hcond]
  · intro hunk
    have hget : mapGet m.state hci = none := by
      simpa [is_known, Option.isSome_iff_exists] using hunk
    have hpres : present_of m hci = false := by simp [present_of, hget]
    have hoff : get_process_state m hci = ProcessState.Off := by
      simp [get_process_state, hget]
    refine ⟨?_, hoff⟩
    have hcond : ¬ ((get_process_state m hci = ProcessState.Off ∨
         get_process_state m hci = ProcessState.TurningOn) ∧
        present_of m hci = true ∧ m.floss_enabled = true) := by
      rintro ⟨-, hp, -⟩
      rw [hpres] at hp
      exact Bool.false_ne_true hp
    simp only [action_start_bluetooth, if_neg hcond]

/-- Concrete machine for the C6 witness: adapter 0 is `Off`, present and
config-enabled, floss enabled. -/
def mC6 : StateMachineInternal :=
  { floss_enabled := true, default_adapter := 0, desired_adapter := 0,
    state := [(0, { state := ProcessState.Off, hci := 0, pid := 0,
                    present := true, config_enabled := true,
                    restart_count := 0 })] }

/-- Witness for C6 at a concrete machine (the starting branch). -/
theorem C6_start_adapter_witness :
    (action_start_bluetooth mC6 0).1 = CommandTimeoutAction.ResetTimer ∧
    (action_start_bluetooth mC6 0).2.2 = [ProcessAction.Start 0] :=
  have h := (C6_start_adapter_thm mC6 0).1 (by refine ⟨Or.inl ?_, ?_, ?_⟩ <;> decide)
  ⟨h.1, h.2.1⟩

/-! ### Claim C2 -/

/-- Concrete adapter for C2: `On`, present, config-enabled, count 0. -/
def aC2 : AdapterState :=
  { state := ProcessState.On, hci := 0, pid := 7, present := true,
    config_enabled := true, restart_count := 0 }

/-- Concrete machine for C2. -/
def mC2 : StateMachineInternal :=
  { floss_enabled := true, default_adapter := 0, desired_adapter := 0,
    state := [(0, aC2)] }

/-- First `DaemonStopped` on `mC2`. -/
def rC2a : CommandTimeoutAction × StateMachineInternal × List ProcessAction :=
  action_on_bluetooth_stopped mC2 0

/-- Second consecutive `DaemonStopped`. -/
def rC2b : CommandTimeoutAction × StateMachineInternal × List ProcessAction :=
  action_on_bluetooth_stopped rC2a.2.1 0

/-- Third consecutive `DaemonStopped`. -/
def rC2c : CommandTimeoutAction × StateMachineInternal × List ProcessAction :=
  action_on_bluetooth_stopped rC2b.2.1 0

/-- Counterexample to claim C2's final consequence: three consecutive
`DaemonStopped` events starting from `On` (floss and config enabled,
`restart_count = 0`) emit exactly one `Start` and never a `Reset` — the
second event finds the adapter in `TurningOn` and takes the warn branch —
leaving state `Off` with `restart_count = 1`, not two restarts, a reset
and `restart_count = 0` as claimed. -/
theorem C2_counterexample :
    rC2a.2.2 ++ rC2b.2.2 ++ rC2c.2.2 = [ProcessAction.Start 0] ∧
    get_process_state rC2c.2.1 0 = ProcessState.Off ∧
    restart_count_of rC2c.2.1 0 = 1 := by decide

/-- Claim C2 (amended): for an adapter in state `On` with `floss_enabled`
and `config_enabled` true, `on_daemon_stopped` with
`restart_count < RESET_ON_RESTART_COUNT` sets state `TurningOn`,
increments `restart_count`, emits `Start` and returns `ResetTimer`; with
`restart_count ≥ RESET_ON_RESTART_COUNT` it sets state `Off`, resets
`restart_count` to 0, emits `Reset` and returns `CancelTimer`. However,
three consecutive `DaemonStopped` events from `On` do NOT escalate to a
reset: only the first finds state `On` (one `Start` emitted); the second
and third take the fallback branch, leaving state `Off` and
`restart_count = 1`, with no `Reset` emitted. -/
theorem C2_daemon_stopped_thm (m : StateMachineInternal) (hci : Int)
    (a : AdapterState) (ha : mapGet m.state hci = some a)
    (hs : a.state = ProcessState.On) (hf : m.floss_enabled = true)
    (hc : a.config_enabled = true) :
    (a.restart_count < RESET_ON_RESTART_COUNT →
      (action_on_bluetooth_stopped m hci).1 = CommandTimeoutAction.ResetTimer ∧
      (action_on_bluetooth_stopped m hci).2.2 = [ProcessAction.Start hci] ∧
      mapGet (action_on_bluetooth_stopped m hci).2.1.state hci =
        some { a with state := ProcessState.TurningOn,
                      restart_count := a.restart_count + 1 }) ∧
    (a.restart_count ≥ RESET_ON_RESTART_COUNT →
      (action_on_bluetooth_stopped m hci).1 = CommandTimeoutAction.CancelTimer ∧
      (action_on_bluetooth_stopped m hci).2.2 = [ProcessAction.Reset hci] ∧
      mapGet (action_on_bluetooth_stopped m hci).2.1.state hci =
        some { a with state := ProcessState.Off, restart_count := 0 }) ∧
    (rC2a.2.2 ++ rC2b.2.2 ++ rC2c.2.2 = [ProcessAction.Start 0] ∧
      get_process_state rC2c.2.1 0 = ProcessState.Off ∧
      restart_count_of rC2c.2.1 0 = 1) := by
  have hstate : get_process_state m hci = ProcessState.On := by
    simp [get_process_state, ha, hs]
  have hcfg : config_enabled_of m hci = true := by
    simp [config_enabled_of, ha, hc]
  have hrc : restart_count_of m hci = a.restart_count := by
    simp [restart_count_of, ha]
  have hentry : entry_or_new m hci = a := by simp [entry_or_new, ha]
  refine ⟨?_, ?_, by decide⟩
  · intro hlt
    have hge : ¬ restart_count_of m hci ≥ RESET_ON_RESTART_COUNT := by
      rw [hrc]; exact not_le.mpr hlt
    simp only [action_on_bluetooth_stopped, hstate, hcfg, hf, and_self,
      if_true, if_neg hge]
    refine ⟨by trivial, by trivial, ?_⟩
    rw [mapGet_modify_state, if_pos rfl, hentry]
  · intro hge'
    have hge : restart_count_of m hci ≥ RESET_ON_RESTART_COUNT := by
      rw [hrc]; exact hge'
    simp only [action_on_bluetooth_stopped, hstate, hcfg, hf, and_self,
      if_true, if_pos hge]
    refine ⟨by trivial, by trivial, ?_⟩
    rw [mapGet_modify_state, if_pos rfl, hentry]

/-- Witness for C2 at the concrete machine `mC2` (restart branch). -/
theorem C2_daemon_stopped_witness :
    (action_on_bluetooth_stopped mC2 0).1 = CommandTimeoutAction.ResetTimer ∧
    (action_on_bluetooth_stopped mC2 0).2.2 = [ProcessAction.Start 0] :=
  have h := (C2_daemon_stopped_thm mC2 0 aC2 (by decide) (by decide)
    (by decide) (by decide)).1 (by decide)
  ⟨h.1, h.2.1⟩

/-! ### Claim C4 -/

theorem stripLit_append (lit s : List Char) : stripLit lit (lit ++ s) = some s := by
  induction lit with
  | nil => rfl
  | cons c cs ih => simp [stripLit, ih]

theorem takeWhile_digits_append (ds : List Char)
    (hds : ∀ c ∈ ds, isDigitChar c = true) (x : Char)
    (hx : isDigitChar x = false) (rest : List Char) :
    (ds ++ x :: rest).takeWhile isDigitChar = ds ∧
    (ds ++ x :: rest).dropWhile isDigitChar = x :: rest := by
  induction ds with
  | nil => simp [List.takeWhile_cons, List.dropWhile_cons, hx]
  | cons c cs ih =>
    have hc : isDigitChar c = true := hds c (by simp)
    have ih' := ih (fun c' hc' => hds c' (by simp [hc']))
    simp [List.takeWhile_cons, List.dropWhile_cons, hc, ih'.1, ih'.2]

/-- Counterexample to claim C4: the dot in the source pattern is not
escaped and the regex is searched anywhere in the string, so a name whose
separator is not a dot, and a name with surrounding extra characters
(the repository's own unit test uses full paths), both parse
successfully instead of returning `None`. -/
theorem C4_counterexample :
    get_hci_index_from_pid_path "bluetooth5Xpid" = some 5 ∧
    get_hci_index_from_pid_path "/var/run/bluetooth/bluetooth0.pid" = some 0 := by
  decide

/-- Claim C4 (amended): the parser returns `Some(N)` for every string of
the form `bluetooth<N>.pid` whose digit string fits in an `i32` (larger
values fail `parse::<i32>` and give `None`). It does NOT return `None` on
every other string: the pattern is searched anywhere in the input and the
dot is an unescaped `.` matching any character, so surrounding characters
(e.g. a full path) or a non-dot separator still yield `Some` — while a
string containing no `bluetooth<digits><char>pid` substring, or one whose
digit capture overflows `i32`, yields `None`. -/
theorem C4_pid_path_thm (ds : List Char) (hne : ds ≠ [])
    (hds : ∀ c ∈ ds, isDigitChar c = true)
    (hbound : digitsToNat ds ≤ 2147483647) :
    get_hci_index_from_pid_path
        (String.mk (['b', 'l', 'u', 'e', 't', 'o', 'o', 't', 'h'] ++ ds
          ++ ['.', 'p', 'i', 'd'])) =
      some (Int.ofNat (digitsToNat ds)) ∧
    get_hci_index_from_pid_path "bluetooth123pid" = some 12 ∧
    get_hci_index_from_pid_path "bluetooth99999999999.pid" = none ∧
    get_hci_index_from_pid_path "/var/run/bluetooth/garbage" = none := by
  refine ⟨?_, by decide, by decide, by decide⟩
  have hdot : isDigitChar '.' = false := by decide
  have htk := takeWhile_digits_append ds hds '.' hdot ['p', 'i', 'd']
  have hmatch : matchAt ('b' :: 'l' :: 'u' :: 'e' :: 't' :: 'o' :: 'o' :: 't'
      :: 'h' :: (ds ++ ['.', 'p', 'i', 'd'])) = some ds := by
    have hstrip : stripLit ['b', 'l', 'u', 'e', 't', 'o', 'o', 't', 'h']
        ('b' :: 'l' :: 'u' :: 'e' :: 't' :: 'o' :: 'o' :: 't' :: 'h'
          :: (ds ++ ['.', 'p', 'i', 'd'])) = some (ds ++ ['.', 'p', 'i', 'd']) := by
      simpa using stripLit_append ['b', 'l', 'u', 'e', 't', 'o', 'o', 't', 'h']
        (ds ++ ['.', 'p', 'i', 'd'])
    rw [matchAt, hstrip]
    simp only [htk.1, htk.2]
    cases ds with
    | nil => exact absurd rfl hne
    | cons d0 dtl =>
      simp only [List.isEmpty_cons, Bool.false_eq_true, if_false,
        List.length_cons, tryDigits]
      have hdrop : (d0 :: dtl).drop (dtl.length + 1) = [] := by
        have hlen : dtl.length + 1 = (d0 :: dtl).length := by simp
        rw [hlen, List.drop_length]
      rw [hdrop]
      have hpid : dotPidAt ([] ++ '.' :: ['p', 'i', 'd']) = true := by decide
      rw [hpid]
      simp only [if_true]
      have hlen : dtl.length + 1 = (d0 :: dtl).length := by simp
      rw [hlen, List.take_length]
  have hfind : findCapture ('b' :: 'l' :: 'u' :: 'e' :: 't' :: 'o' :: 'o'
      :: 't' :: 'h' :: (ds ++ ['.', 'p', 'i', 'd'])) = some ds := by
    rw [findCapture, hmatch]
  have hL : (['b', 'l', 'u', 'e', 't', 'o', 'o', 't', 'h'] : List Char) ++ ds
      ++ ['.', 'p', 'i', 'd'] =
      'b' :: 'l' :: 'u' :: 'e' :: 't' :: 'o' :: 'o' :: 't' :: 'h'
        :: (ds ++ ['.', 'p', 'i', 'd']) := by simp
  rw [get_hci_index_from_pid_path]
  rw [show (String.mk (['b', 'l', 'u', 'e', 't', 'o', 'o', 't', 'h'] ++ ds
    ++ ['.', 'p', 'i', 'd'])).data = ['b', 'l', 'u', 'e', 't', 'o', 'o', 't', 'h']
    ++ ds ++ ['.', 'p', 'i', 'd'] from rfl]
  rw [hL, hfind]
  simp [parseI32, hbound]

/-- Witness for C4 at the concrete digit string `7`. -/
theorem C4_pid_path_witness :
    get_hci_index_from_pid_path
        (String.mk (['b', 'l', 'u', 'e', 't', 'o', 'o', 't', 'h'] ++ ['7']
          ++ ['.', 'p', 'i', 'd'])) =
      some (Int.ofNat (digitsToNat ['7'])) :=
  (C4_pid_path_thm ['7'] (by decide) (by decide) (by decide)).1

/-! ### Claim C3 -/

/-- The StateCore operations of §4.1, as dispatched by the event loop. -/
inductive Op where
  | start (hci : Int)
  | stop (hci : Int)
  | started (pid hci : Int)
  | stopped (hci : Int)
  | timeout (hci : Int)
  | presence (hci : Int) (p : Bool)
  | setDesired (hci : Int)
deriving DecidableEq, Repr

/-- The machine component of one StateCore operation. -/
def applyOp (m : StateMachineInternal) : Op → StateMachineInternal
  | Op.start hci => (action_start_bluetooth m hci).2.1
  | Op.stop hci => (action_stop_bluetooth m hci).2.1
  | Op.started pid hci => (action_on_bluetooth_started m pid hci).2
  | Op.stopped hci => (action_on_bluetooth_stopped m hci).2.1
  | Op.timeout hci => (action_on_command_timeout m hci).2.1
  | Op.presence hci p => (action_on_hci_presence_changed m hci p).2.1
  | Op.setDesired hci => (set_desired_default_adapter m hci).2

/-- Bounds on one adapter's `restart_count`. -/
def AOK (a : AdapterState) : Prop :=
  0 ≤ a.restart_count ∧ a.restart_count ≤ RESET_ON_RESTART_COUNT

/-- `restart_count ∈ [0, RESET_ON_RESTART_COUNT]` for every known adapter. -/
def countInv (m : StateMachineInternal) : Prop :=
  ∀ (h : Int) (a : AdapterState), mapGet m.state h = some a → AOK a

theorem AOK_zero (a : AdapterState) (h : a.restart_count = 0) : AOK a :=
  ⟨h.ge, by rw [h]; decide⟩

theorem AOK_increment (a : AdapterState) (h0 : 0 ≤ a.restart_count)
    (h : ¬ a.restart_count ≥ RESET_ON_RESTART_COUNT) :
    0 ≤ a.restart_count + 1 ∧
    a.restart_count + 1 ≤ RESET_ON_RESTART_COUNT := by
  have h2 : RESET_ON_RESTART_COUNT = 2 := rfl
  rw [h2] at h ⊢
  omega

theorem countInv_entry_or_new (m : StateMachineInternal) (k : Int)
    (hm : countInv m) : AOK (entry_or_new m k) := by
  unfold entry_or_new
  cases hget : mapGet m.state k with
  | some a => simpa using hm k a hget
  | none =>
    simp only [Option.getD_none]
    exact AOK_zero _ rfl

theorem countInv_modify (m : StateMachineInternal) (k : Int)
    (f : AdapterState → AdapterState) (hm : countInv m)
    (hf : AOK (f (entry_or_new m k))) : countInv (modify_state m k f) := by
  intro h a hget
  rw [mapGet_modify_state] at hget
  by_cases hk : h = k
  · rw [if_pos hk] at hget
    cases hget
    exact hf
  · rw [if_neg hk] at hget
    exact hm h a hget

theorem restart_count_of_entry (m : StateMachineInternal) (k : Int) :
    restart_count_of m k = (entry_or_new m k).restart_count := by
  unfold restart_count_of entry_or_new
  cases hget : mapGet m.state k <;> simp [AdapterState.new]

theorem countInv_start (m : StateMachineInternal) (hci : Int)
    (hm : countInv m) : countInv (action_start_bluetooth m hci).2.1 := by
  simp only [action_start_bluetooth]
  split
  · exact countInv_modify _ _ _ hm (countInv_entry_or_new m hci hm)
  · exact hm

theorem countInv_applyOp (m : StateMachineInternal) (op : Op)
    (hm : countInv m) : countInv (applyOp m op) := by
  cases op with
  | start hci => exact countInv_start m hci hm
  | stop hci =>
    simp only [applyOp, action_stop_bluetooth]
    split
    · exact hm
    · split
      · exact countInv_modify _ _ _ hm (countInv_entry_or_new m hci hm)
      · exact countInv_modify _ _ _ hm (countInv_entry_or_new m hci hm)
      · exact hm
  | started pid hci =>
    simp only [applyOp, action_on_bluetooth_started]
    refine countInv_modify _ _ _ ?_ (AOK_zero _ rfl)
    split
    · exact hm
    · exact countInv_modify _ _ _ hm (countInv_entry_or_new m hci hm)
  | stopped hci =>
    simp only [applyOp, action_on_bluetooth_stopped]
    have he := countInv_entry_or_new m hci hm
    split
    · exact countInv_modify _ _ _ hm he
    · split
      · split
        · exact countInv_modify _ _ _ hm (AOK_zero _ rfl)
        · rename_i hnotge
          rw [restart_count_of_entry] at hnotge
          exact countInv_modify _ _ _ hm (AOK_increment _ he.1 hnotge)
      · exact countInv_modify _ _ _ hm he
    · exact countInv_modify _ _ _ hm he
  | timeout hci =>
    simp only [applyOp, action_on_command_timeout]
    have he := countInv_entry_or_new m hci hm
    split
    · split
      · exact countInv_modify _ _ _ hm he
      · split
        · split
          · exact countInv_modify _ _ _ hm (AOK_zero _ rfl)
          · rename_i hnotge
            rw [restart_count_of_entry] at hnotge
            exact countInv_modify _ _ _ hm (AOK_increment _ he.1 hnotge)
        · exact hm
    · exact hm
    · exact hm
  | presence hci p =>
    simp only [applyOp, action_on_hci_presence_changed]
    split
    · exact hm
    · have h1 : countInv (modify_state m hci (fun a => { a with present := p })) :=
        countInv_modify _ _ _ hm (countInv_entry_or_new m hci hm)
      cases hget : mapGet (modify_state m hci
          (fun a => { a with present := p })).state hci with
      | none =>
        simp only [hget, Option.map_none']
        exact h1
      | some a =>
        simp only [hget, Option.map_some']
        cases hs : a.state <;> cases hc : a.config_enabled <;> try exact h1
        by_cases hcond : ((modify_state m hci
            (fun a => { a with present := p })).floss_enabled = true ∧ p = true)
        · rw [if_pos hcond]
          exact countInv_start _ hci (countInv_modify _ _ _ h1 (AOK_zero _ rfl))
        · rw [if_neg hcond]
          exact h1
  | setDesired hci =>
    simp only [applyOp, set_desired_default_adapter]
    split
    · exact fun h a hget => hm h a hget
    · exact fun h a hget => hm h a hget

/-- Claim C3: for every machine whose adapters satisfy
`restart_count ∈ [0, RESET_ON_RESTART_COUNT]` and every sequence of
StateCore operations (`start_adapter`, `stop_adapter`, `on_daemon_started`,
`on_daemon_stopped`, `on_timeout`, `on_presence_changed`,
`set_desired_default_adapter`), the bound still holds for every adapter
after applying the sequence. -/
theorem C3_restart_count_thm (m : StateMachineInternal) (hm : countInv m)
    (ops : List Op) : countInv (ops.foldl applyOp m) := by
  induction ops generalizing m with
  | nil => exact hm
  | cons op ops ih => exact ih _ (countInv_applyOp m op hm)

/-- Witness for C3: a concrete run from the empty machine through a
presence event, a start, a timeout and a daemon crash. -/
theorem C3_restart_count_witness :
    countInv (([Op.presence 0 true, Op.start 0, Op.timeout 0, Op.stopped 0,
        Op.started 42 0, Op.stopped 0] : List Op).foldl applyOp
      (StateMachineInternal.new true 0)) :=
  C3_restart_count_thm (StateMachineInternal.new true 0)
    (by intro h a hget; simp [StateMachineInternal.new, mapGet] at hget) _

/-! ### Claim C5 -/

theorem start_bluetooth_default (m : StateMachineInternal) (hci : Int) :
    (action_start_bluetooth m hci).2.1.default_adapter = m.default_adapter := by
  simp only [action_start_bluetooth]
  split <;> rfl

theorem start_bluetooth_desired (m : StateMachineInternal) (hci : Int) :
    (action_start_bluetooth m hci).2.1.desired_adapter = m.desired_adapter := by
  simp only [action_start_bluetooth]
  split <;> rfl

theorem get_lowest_set_default (m : StateMachineInternal) (n : Int) :
    get_lowest_available_adapter { m with default_adapter := n } =
      get_lowest_available_adapter m := rfl

/-- The machine returned by a presence change keeps `default_adapter` and
`desired_adapter`, and the returned default-adapter action is determined
by the three-way comparison of the source (state_machine.rs:1234). -/
theorem presence_result (m : StateMachineInternal) (hci : Int) (p : Bool)
    (h : ¬ present_of m hci = p) :
    (action_on_hci_presence_changed m hci p).2.1.default_adapter =
      m.default_adapter ∧
    (action_on_hci_presence_changed m hci p).2.1.desired_adapter =
      m.desired_adapter ∧
    (action_on_hci_presence_changed m hci p).1.2 =
      (if p = true ∧ hci = m.desired_adapter ∧ ¬ hci = m.default_adapter then
        AdapterChangeAction.NewDefaultAdapter m.desired_adapter
      else if p = false ∧ hci = m.default_adapter then
        match get_lowest_available_adapter
            (action_on_hci_presence_changed m hci p).2.1 with
        | some v => AdapterChangeAction.NewDefaultAdapter v
        | none => AdapterChangeAction.DoNothing
      else AdapterChangeAction.DoNothing) := by
  simp only [action_on_hci_presence_changed, if_neg h]
  cases hget : mapGet (modify_state m hci
      (fun a => { a with present := p })).state hci with
  | none =>
    simp only [hget, Option.map_none']
    exact ⟨rfl, rfl, rfl⟩
  | some a =>
    simp only [hget, Option.map_some']
    cases hs : a.state <;> cases hc : a.config_enabled <;>
      try exact ⟨rfl, rfl, rfl⟩
    by_cases hcond : ((modify_state m hci
        (fun a => { a with present := p })).floss_enabled = true ∧ p = true)
    · rw [if_pos hcond]
      refine ⟨?_, ?_, ?_⟩
      · rw [start_bluetooth_default]; rfl
      · rw [start_bluetooth_desired]; rfl
      · simp only [start_bluetooth_default, start_bluetooth_desired,
          modify_state_default, modify_state_desired]
    · rw [if_neg hcond]
      exact ⟨rfl, rfl, rfl⟩

/-- Concrete combined state for the C5 counterexample: floss enabled,
`desired_adapter = default_adapter = 1`, no adapter known. -/
def cC5 : Combined :=
  { sm := StateMachineInternal.new true 1, ct := CommandTimeout.new 7 }

/-- Counterexample to claim C5: adapter 0 (not the desired adapter 1)
becomes present while the desired and the current default adapter are both
absent. The code leaves `default_adapter = 1`, although the desired
adapter is not present and the lowest present HCI index is 0 — the
invariant "otherwise it equals the lowest present HCI index" fails. -/
theorem C5_counterexample :
    (step cC5 0 (Event.HciDevicePresence 0 true)).sm.default_adapter = 1 ∧
    present_of (step cC5 0 (Event.HciDevicePresence 0 true)).sm 1 = false ∧
    get_lowest_available_adapter
      (step cC5 0 (Event.HciDevicePresence 0 true)).sm = some 0 ∧
    ¬ (1 : Int) = 0 := by decide

/-- Claim C5 (amended): `default_adapter` is not globally recomputed; after
a presence event it changes exactly in two cases — (a) the newly present
adapter is the desired adapter and differs from the current default (the
default becomes the desired adapter), (b) the adapter that became absent
is the current default (the default becomes the lowest present HCI index,
or keeps its value when none is present) — and otherwise keeps its last
value, even when the desired adapter is absent and the default is not the
lowest present index. A `SetDesiredDefaultAdapter` event records the
desire and changes the default exactly when the target differs from the
current default and is present. -/
theorem C5_default_adapter_thm (c : Combined) (now : Nat) (hci : Int) (p : Bool) :
    (present_of c.sm hci = p →
      (step c now (Event.HciDevicePresence hci p)).sm = c.sm) ∧
    (¬ present_of c.sm hci = p →
      ((p = true ∧ hci = c.sm.desired_adapter ∧ ¬ hci = c.sm.default_adapter) →
        (step c now (Event.HciDevicePresence hci p)).sm.default_adapter =
          c.sm.desired_adapter) ∧
      (¬ (p = true ∧ hci = c.sm.desired_adapter ∧ ¬ hci = c.sm.default_adapter) →
        (p = false ∧ hci = c.sm.default_adapter) →
        (∀ v : Int,
          get_lowest_available_adapter
              (step c now (Event.HciDevicePresence hci p)).sm = some v →
            (step c now (Event.HciDevicePresence hci p)).sm.default_adapter = v) ∧
        (get_lowest_available_adapter
            (step c now (Event.HciDevicePresence hci p)).sm = none →
          (step c now (Event.HciDevicePresence hci p)).sm.default_adapter =
            c.sm.default_adapter)) ∧
      (¬ (p = true ∧ hci = c.sm.desired_adapter ∧ ¬ hci = c.sm.default_adapter) →
        ¬ (p = false ∧ hci = c.sm.default_adapter) →
        (step c now (Event.HciDevicePresence hci p)).sm.default_adapter =
          c.sm.default_adapter)) ∧
    ((step c now (Event.SetDesiredDefaultAdapter hci)).sm.desired_adapter = hci ∧
      (step c now (Event.SetDesiredDefaultAdapter hci)).sm.default_adapter =
        (if ¬ (c.sm.default_adapter = hci) ∧ present_of c.sm hci = true then hci
         else c.sm.default_adapter)) := by
  refine ⟨?_, ?_, ?_, ?_⟩
  · intro hp
    simp only [step, action_on_hci_presence_changed, if_pos hp]
  · intro hne
    obtain ⟨hd, hdes, hch⟩ := presence_result c.sm hci p hne
    refine ⟨?_, ?_, ?_⟩
    · intro hcond1
      simp only [step]
      rw [hch, if_pos hcond1]
    · intro hn1 hcond2
      simp only [step]
      rw [hch, if_neg hn1, if_pos hcond2]
      cases hlow : get_lowest_available_adapter
          (action_on_hci_presence_changed c.sm hci p).2.1 with
      | some v =>
        constructor
        · intro v' hv'
          rw [get_lowest_set_default] at hv'
          rw [hlow] at hv'
          cases hv'
          rfl
        · intro hv'
          rw [get_lowest_set_default, hlow] at hv'
          cases hv'
      | none =>
        constructor
        · intro v' hv'
          rw [hlow] at hv'
          cases hv'
        · intro _
          exact hd
    · intro hn1 hn2
      simp only [step]
      rw [hch, if_neg hn1, if_neg hn2]
      exact hd
  · simp only [step, set_desired_default_adapter]
    by_cases hcond : (c.sm.default_adapter ≠ hci ∧
        present_of { c.sm with desired_adapter := hci } hci = true)
    · rw [if_pos hcond]
    · rw [if_neg hcond]
  · simp only [step, set_desired_default_adapter]
    by_cases hcond : (¬ (c.sm.default_adapter = hci) ∧
        present_of c.sm hci = true)
    · have hcondL : (c.sm.default_adapter ≠ hci ∧
          present_of { c.sm with desired_adapter := hci } hci = true) := hcond
      rw [if_pos hcondL, if_pos hcond]
    · have hcondL : ¬ (c.sm.default_adapter ≠ hci ∧
          present_of { c.sm with desired_adapter := hci } hci = true) :=
        fun hx => hcond hx
      rw [if_neg hcondL, if_neg hcond]

/-- Witness for C5: adapter 0 is present and desired but not default; its
presence event makes it the default. -/
def cC5w : Combined :=
  { sm := { floss_enabled := true, default_adapter := 1, desired_adapter := 0,
            state := [(0, { state := ProcessState.Off, hci := 0, pid := 0,
                            present := false, config_enabled := false,
                            restart_count := 0 })] },
    ct := CommandTimeout.new 7 }

/-- Witness for C5 at a concrete machine (the desired-adapter branch). -/
theorem C5_default_adapter_witness :
    (step cC5w 0 (Event.HciDevicePresence 0 true)).sm.default_adapter =
      cC5w.sm.desired_adapter :=
  ((C5_default_adapter_thm cC5w 0 0 true).2.1 (by decide)).1
    (by refine ⟨rfl, ?_, ?_⟩ <;> decide)

/-! ### Claim C7 -/

theorem expire_fold_le_seed (now : Nat) (l : List (Int × Nat)) : ∀ s : Nat,
    l.foldl (fun acc p => if p.2 < now then acc
      else if p.2 < acc then p.2 else acc) s ≤ s := by
  induction l with
  | nil => intro s; exact le_refl s
  | cons q l ih =>
    intro s
    simp only [List.foldl_cons]
    refine le_trans (ih _) ?_
    by_cases h1 : q.2 < now
    · rw [if_pos h1]
    · rw [if_neg h1]
      by_cases h2 : q.2 < s
      · rw [if_pos h2]; exact le_of_lt h2
      · rw [if_neg h2]

theorem expire_fold_le_mem (now : Nat) (l : List (Int × Nat)) :
    ∀ (s : Nat) (q : Int × Nat), q ∈ l → ¬ q.2 < now →
    l.foldl (fun acc p => if p.2 < now then acc
      else if p.2 < acc then p.2 else acc) s ≤ q.2 := by
  induction l with
  | nil => intro s q hq; simp at hq
  | cons r l ih =>
    intro s q hq hnlt
    simp only [List.foldl_cons]
    rcases List.mem_cons.mp hq with heq | hmem
    · subst heq
      refine le_trans (expire_fold_le_seed now l _) ?_
      rw [if_neg hnlt]
      by_cases h2 : q.2 < s
      · rw [if_pos h2]
      · rw [if_neg h2]; exact le_of_not_lt h2
    · exact ih _ q hmem hnlt

theorem expire_fold_eq (now : Nat) (l : List (Int × Nat)) : ∀ s : Nat,
    l.foldl (fun acc p => if p.2 < now then acc
      else if p.2 < acc then p.2 else acc) s = s ∨
    ∃ q : Int × Nat, q ∈ l ∧ ¬ q.2 < now ∧
      l.foldl (fun acc p => if p.2 < now then acc
        else if p.2 < acc then p.2 else acc) s = q.2 := by
  induction l with
  | nil => intro s; exact Or.inl rfl
  | cons r l ih =>
    intro s
    simp only [List.foldl_cons]
    by_cases h1 : r.2 < now
    · rw [if_pos h1]
      rcases ih s with heq | ⟨q, hq, h, e⟩
      · exact Or.inl heq
      · exact Or.inr ⟨q, List.mem_cons_of_mem r hq, h, e⟩
    · rw [if_neg h1]
      by_cases h2 : r.2 < s
      · rw [if_pos h2]
        rcases ih r.2 with heq | ⟨q, hq, h, e⟩
        · exact Or.inr ⟨r, List.mem_cons_self r l, h1, heq⟩
        · exact Or.inr ⟨q, List.mem_cons_of_mem r hq, h, e⟩
      · rw [if_neg h2]
        rcases ih s with heq | ⟨q, hq, h, e⟩
        · exact Or.inl heq
        · exact Or.inr ⟨q, List.mem_cons_of_mem r hq, h, e⟩

theorem hmGet_mem (m : List (Int × Nat)) (j : Int) (d : Nat)
    (h : hmGet m j = some d) : (j, d) ∈ m := by
  induction m with
  | nil => simp [hmGet] at h
  | cons q rest ih =>
    obtain ⟨k', v'⟩ := q
    by_cases hk : j = k'
    · subst hk
      simp only [hmGet, if_true, eq_self_iff_true] at h
      rw [Option.some.injEq] at h
      subst h
      exact List.mem_cons_self _ _
    · simp only [hmGet, if_neg hk] at h
      exact List.mem_cons_of_mem _ (ih h)

theorem mem_hmGet (m : List (Int × Nat)) (hnd : (m.map Prod.fst).Nodup)
    (j : Int) (d : Nat) (h : (j, d) ∈ m) : hmGet m j = some d := by
  induction m with
  | nil => simp at h
  | cons q rest ih =>
    obtain ⟨k', v'⟩ := q
    simp only [List.map_cons, List.nodup_cons] at hnd
    rcases List.mem_cons.mp h with heq | hmem
    · cases heq
      simp [hmGet]
    · have hk : ¬ j = k' := by
        intro hjk
        subst hjk
        exact hnd.1 (List.mem_map.mpr ⟨(j, d), hmem, rfl⟩)
      simp only [hmGet, if_neg hk]
      exact ih hnd.2 hmem

theorem mem_hmRemove (m : List (Int × Nat)) (k : Int) (q : Int × Nat) :
    q ∈ hmRemove m k ↔ q ∈ m ∧ ¬ q.1 = k := by
  induction m with
  | nil => simp [hmRemove]
  | cons r rest ih =>
    obtain ⟨k', v'⟩ := r
    by_cases hk : k' = k
    · subst hk
      rw [show hmRemove ((k', v') :: rest) k' = hmRemove rest k' from by
        simp [hmRemove]]
      rw [ih]
      constructor
      · rintro ⟨hq, hne⟩
        exact ⟨List.mem_cons_of_mem _ hq, hne⟩
      · rintro ⟨hq, hne⟩
        rcases List.mem_cons.mp hq with heq | hmem
        · exact absurd (by rw [heq]) hne
        · exact ⟨hmem, hne⟩
    · simp only [hmRemove, if_neg hk]
      constructor
      · intro hq
        rcases List.mem_cons.mp hq with heq | hmem
        · subst heq
          exact ⟨List.mem_cons_self _ _, hk⟩
        · have := (ih.mp hmem)
          exact ⟨List.mem_cons_of_mem _ this.1, this.2⟩
      · rintro ⟨hq, hne⟩
        rcases List.mem_cons.mp hq with heq | hmem
        · subst heq
          exact List.mem_cons_self _ _
        · exact List.mem_cons_of_mem _ (ih.mpr ⟨hmem, hne⟩)

theorem mem_foldRemove (ks : List Int) : ∀ (m : List (Int × Nat)) (q : Int × Nat),
    q ∈ ks.foldl (fun m h => hmRemove m h) m ↔ q ∈ m ∧ ¬ q.1 ∈ ks := by
  induction ks with
  | nil => intro m q; simp
  | cons k ks ih =>
    intro m q
    simp only [List.foldl_cons]
    rw [ih, mem_hmRemove, List.mem_cons]
    constructor
    · rintro ⟨⟨hq, hne⟩, hnk⟩
      exact ⟨hq, fun h => h.elim hne hnk⟩
    · rintro ⟨hq, hn⟩
      exact ⟨⟨hq, fun h => hn (Or.inl h)⟩, fun h => hn (Or.inr h)⟩

theorem hmGet_foldRemove (ks : List Int) : ∀ (m : List (Int × Nat)) (j : Int),
    hmGet (ks.foldl (fun m h => hmRemove m h) m) j =
      if j ∈ ks then none else hmGet m j := by
  induction ks with
  | nil => intro m j; simp
  | cons k ks ih =>
    intro m j
    simp only [List.foldl_cons]
    rw [ih, hmGet_hmRemove]
    by_cases hks : j ∈ ks
    · simp [hks]
    · by_cases hk : j = k
      · simp [hks, hk]
      · simp [hks, hk]

/-- Concrete `CommandTimeout` for the C7 counterexample: one entry whose
deadline equals the current instant. -/
def ctC7 : CommandTimeout :=
  { per_hci_timeout := [(0, 5)], expired := false, duration := 7, waker := 7 }

/-- Counterexample to claim C7: `expire` compares with `*expiry < now`
(strict), so an entry whose deadline is exactly `now` — which the claim's
"less than or equal" includes — is neither returned nor removed. -/
theorem C7_counterexample :
    (CommandTimeout.expire ctC7 5).1 = [] ∧
    hmGet (CommandTimeout.expire ctC7 5).2.per_hci_timeout 0 = some 5 := by
  decide

/-- Claim C7 (amended): `expire` returns exactly the HCI indices whose
stored deadline is STRICTLY LESS than the current instant (an entry whose
deadline equals `now` is kept, per the code's `*expiry < now` and its doc
comment "entries that are older than now"), removes exactly those entries
from the per-HCI map, re-arms the shared wakeup to the earliest remaining
deadline when entries remain (given that every stored deadline is at most
`now + duration`, which `set_next` guarantees), and marks the timer idle
when none remain. -/
theorem C7_expire_thm (ct : CommandTimeout) (now : Nat)
    (hnd : (ct.per_hci_timeout.map Prod.fst).Nodup)
    (hbound : ∀ q ∈ ct.per_hci_timeout, q.2 ≤ now + ct.duration) :
    (∀ j : Int, j ∈ (CommandTimeout.expire ct now).1 ↔
      ∃ d : Nat, (j, d) ∈ ct.per_hci_timeout ∧ d < now) ∧
    (∀ (j : Int) (d : Nat), hmGet ct.per_hci_timeout j = some d →
      hmGet (CommandTimeout.expire ct now).2.per_hci_timeout j =
        (if d < now then none else some d)) ∧
    (∀ j : Int, hmGet ct.per_hci_timeout j = none →
      hmGet (CommandTimeout.expire ct now).2.per_hci_timeout j = none) ∧
    ((CommandTimeout.expire ct now).2.per_hci_timeout = [] →
      (CommandTimeout.expire ct now).2.expired = true) ∧
    (¬ (CommandTimeout.expire ct now).2.per_hci_timeout = [] →
      (CommandTimeout.expire ct now).2.expired = false ∧
      ∃ q : Int × Nat, q ∈ (CommandTimeout.expire ct now).2.per_hci_timeout ∧
        (CommandTimeout.expire ct now).2.waker = q.2 - now ∧
        ∀ r ∈ (CommandTimeout.expire ct now).2.per_hci_timeout, q.2 ≤ r.2) := by
  have hfst : (CommandTimeout.expire ct now).1 =
      (ct.per_hci_timeout.filter (fun p => p.2 < now)).map (fun p => p.1) := by
    simp only [CommandTimeout.expire]
    split <;> rfl
  have hmap : (CommandTimeout.expire ct now).2.per_hci_timeout =
      ((ct.per_hci_timeout.filter (fun p => p.2 < now)).map
        (fun p => p.1)).foldl (fun m h => hmRemove m h) ct.per_hci_timeout := by
    simp only [CommandTimeout.expire]
    split <;> rfl
  have hcomp : ∀ j : Int,
      j ∈ (ct.per_hci_timeout.filter (fun p => p.2 < now)).map (fun p => p.1) ↔
      ∃ d : Nat, (j, d) ∈ ct.per_hci_timeout ∧ d < now := by
    intro j
    constructor
    · intro hj
      obtain ⟨q, hq, rfl⟩ := List.mem_map.mp hj
      obtain ⟨hqm, hqlt⟩ := List.mem_filter.mp hq
      exact ⟨q.2, by simpa using hqm, by simpa using hqlt⟩
    · rintro ⟨d, hdm, hdlt⟩
      exact List.mem_map.mpr ⟨(j, d), List.mem_filter.mpr ⟨hdm, by simpa⟩, rfl⟩
  have hkey : ∀ q : Int × Nat, q ∈ ct.per_hci_timeout →
      (q.1 ∈ (ct.per_hci_timeout.filter (fun p => p.2 < now)).map (fun p => p.1)
        ↔ q.2 < now) := by
    intro q hq
    rw [hcomp]
    constructor
    · rintro ⟨d, hdm, hdlt⟩
      have h1 : hmGet ct.per_hci_timeout q.1 = some d := mem_hmGet _ hnd _ _ hdm
      have h2 : hmGet ct.per_hci_timeout q.1 = some q.2 :=
        mem_hmGet _ hnd _ _ (by simpa using hq)
      rw [h1] at h2
      cases h2
      exact hdlt
    · intro hlt
      exact ⟨q.2, by simpa using hq, hlt⟩
  refine ⟨?_, ?_, ?_, ?_, ?_⟩
  · intro j
    rw [hfst]
    exact hcomp j
  · intro j d hget
    have hmem : (j, d) ∈ ct.per_hci_timeout := hmGet_mem _ _ _ hget
    rw [hmap, hmGet_foldRemove]
    by_cases hlt : d < now
    · rw [if_pos hlt, if_pos ((hkey (j, d) hmem).mpr hlt)]
    · rw [if_neg hlt, if_neg (fun hin => hlt ((hkey (j, d) hmem).mp hin))]
      exact hget
  · intro j hget
    rw [hmap, hmGet_foldRemove]
    split
    · rfl
    · exact hget
  · intro hempty
    simp only [CommandTimeout.expire] at hempty ⊢
    split at hempty
    · rename_i hcond
      rw [show ((ct.per_hci_timeout.filter (fun p => p.2 < now)).map
          (fun p => p.1)).foldl (fun m h => hmRemove m h) ct.per_hci_timeout
          = [] from hempty] at hcond
      simp at hcond
    · rename_i hcond
      split
      · rename_i hcond2
        exact absurd hcond2 hcond
      · rfl
  · intro hne
    rw [hmap] at hne
    obtain ⟨q0, hq0⟩ := List.exists_mem_of_ne_nil _ hne
    have hq0' := (mem_foldRemove _ _ _).mp hq0
    have hq0lt : ¬ q0.2 < now := fun hlt =>
      hq0'.2 ((hkey q0 hq0'.1).mpr hlt)
    have hremmem : ∀ r : Int × Nat,
        r ∈ ((ct.per_hci_timeout.filter (fun p => p.2 < now)).map
          (fun p => p.1)).foldl (fun m h => hmRemove m h) ct.per_hci_timeout →
        r ∈ ct.per_hci_timeout ∧ ¬ r.2 < now := by
      intro r hr
      have hr' := (mem_foldRemove _ _ _).mp hr
      exact ⟨hr'.1, fun hlt => hr'.2 ((hkey r hr'.1).mpr hlt)⟩
    have hmin : ∀ r : Int × Nat, r ∈ ct.per_hci_timeout → ¬ r.2 < now →
        ct.per_hci_timeout.foldl (fun acc p => if p.2 < now then acc
          else if p.2 < acc then p.2 else acc) (now + ct.duration) ≤ r.2 :=
      fun r hr hnr => expire_fold_le_mem now ct.per_hci_timeout _ r hr hnr
    have hexq : ∃ q : Int × Nat,
        q ∈ ((ct.per_hci_timeout.filter (fun p => p.2 < now)).map
          (fun p => p.1)).foldl (fun m h => hmRemove m h) ct.per_hci_timeout ∧
        ct.per_hci_timeout.foldl (fun acc p => if p.2 < now then acc
          else if p.2 < acc then p.2 else acc) (now + ct.duration) = q.2 := by
      rcases expire_fold_eq now ct.per_hci_timeout (now + ct.duration) with
        heq | ⟨q1, hq1, hq1n, heq⟩
      · refine ⟨q0, hq0, ?_⟩
        have hle : ct.per_hci_timeout.foldl (fun acc p => if p.2 < now then acc
            else if p.2 < acc then p.2 else acc) (now + ct.duration) ≤ q0.2 :=
          hmin q0 hq0'.1 hq0lt
        have hge : q0.2 ≤ now + ct.duration := hbound q0 hq0'.1
        rw [heq]
        omega
      · have hq1mem : q1 ∈ ((ct.per_hci_timeout.filter (fun p => p.2 < now)).map
            (fun p => p.1)).foldl (fun m h => hmRemove m h) ct.per_hci_timeout := by
          rw [mem_foldRemove]
          exact ⟨hq1, fun hin => hq1n ((hkey q1 hq1).mp hin)⟩
        exact ⟨q1, hq1mem, heq⟩
    obtain ⟨q, hqmem, hqeq⟩ := hexq
    have hexp : (CommandTimeout.expire ct now).2.expired = false := by
      simp only [CommandTimeout.expire]
      split
      · rfl
      · rename_i hcond
        simp only [not_not] at hcond
        exact absurd (List.isEmpty_iff.mp hcond) hne
    have hwak : (CommandTimeout.expire ct now).2.waker =
        ct.per_hci_timeout.foldl (fun acc p => if p.2 < now then acc
          else if p.2 < acc then p.2 else acc) (now + ct.duration) - now := by
      simp only [CommandTimeout.expire]
      split
      · rfl
      · rename_i hcond
        simp only [not_not] at hcond
        exact absurd (List.isEmpty_iff.mp hcond) hne
    refine ⟨hexp, q, ?_, ?_, ?_⟩
    · rw [hmap]
      exact hqmem
    · rw [hwak, hqeq]
    · intro r hr
      rw [hmap] at hr
      have hr' := hremmem r hr
      rw [← hqeq]
      exact hmin r hr'.1 hr'.2

/-- Concrete `CommandTimeout` for the C7 witness: two entries, one past
its deadline. -/
def ctC7w : CommandTimeout :=
  { per_hci_timeout := [(0, 5), (1, 9)], expired := false, duration := 7,
    waker := 7 }

/-- Witness for C7 at a concrete tracker. -/
theorem C7_expire_witness :
    (0 : Int) ∈ (CommandTimeout.expire ctC7w 6).1 ↔
      ∃ d : Nat, ((0 : Int), d) ∈ ctC7w.per_hci_timeout ∧ d < 6 :=
  (C7_expire_thm ctC7w 6 (by decide) (by decide)).1 0

/-! ### Claim C1 -/

/-- The invariant of claim C1 at one HCI index: the adapter is in a
transitional state iff `CommandTimeout` has an entry for it. -/
def InvAt (c : Combined) (h : Int) : Prop :=
  (get_process_state c.sm h = ProcessState.TurningOn ∨
    get_process_state c.sm h = ProcessState.TurningOff) ↔
  (hmGet c.ct.per_hci_timeout h).isSome = true

instance (c : Combined) (h : Int) : Decidable (InvAt c h) := by
  unfold InvAt
  infer_instance

/-- The slip path of `action_on_hci_presence_changed`: a presence event
that moves an Off, config-enabled adapter to TurningOn (the inner
`action_start_bluetooth` call whose `ResetTimer` result is discarded,
state_machine.rs:1219). -/
def presence_starts_adapter (m : StateMachineInternal) (i : Int) (p : Bool) : Prop :=
  p = true ∧ m.floss_enabled = true ∧
  ∃ a : AdapterState, mapGet m.state i = some a ∧ a.present = false ∧
    a.state = ProcessState.Off ∧ a.config_enabled = true

/-- The catch-all path of `action_on_command_timeout` that leaves a
`TurningOn` adapter (floss enabled, config disabled) with no timer. -/
def timeout_noop_turning_on (m : StateMachineInternal) (i : Int) : Prop :=
  get_process_state m i = ProcessState.TurningOn ∧ m.floss_enabled = true ∧
  config_enabled_of m i = false

/-- Concrete combined state breaking the invariant through a presence
event: adapter 0 Off, absent, config-enabled; floss enabled; empty timer. -/
def cC1a : Combined :=
  { sm := { floss_enabled := true, default_adapter := 0, desired_adapter := 0,
            state := [(0, { state := ProcessState.Off, hci := 0, pid := 0,
                            present := false, config_enabled := true,
                            restart_count := 0 })] },
    ct := CommandTimeout.new 7 }

/-- Concrete combined state breaking the invariant through a command
timeout: adapter 0 TurningOn with config disabled, timer entry due. -/
def cC1b : Combined :=
  { sm := { floss_enabled := true, default_adapter := 0, desired_adapter := 0,
            state := [(0, { state := ProcessState.TurningOn, hci := 0, pid := 0,
                            present := true, config_enabled := false,
                            restart_count := 0 })] },
    ct := { per_hci_timeout := [(0, 5)], expired := false, duration := 7,
            waker := 7 } }

/-- Counterexample to claim C1. Part one: a presence event that turns an
Off adapter to TurningOn leaves no `CommandTimeout` entry, because the
mainloop's presence arm applies no timeout action and the inner
`action_start_bluetooth`'s `ResetTimer` is discarded. Part two: a command
timeout handled in TurningOn with floss enabled and config disabled (the
entry having just been removed by `expire`) leaves the adapter TurningOn
with no entry. In both runs the biconditional held before and fails
after. -/
theorem C1_counterexample :
    (InvAt cC1a 0 ∧ ¬ InvAt (step cC1a 0 (Event.HciDevicePresence 0 true)) 0) ∧
    (InvAt cC1b 0 ∧ (CommandTimeout.expire cC1b.ct 6).1 = [0] ∧
      ¬ InvAt (step { sm := cC1b.sm, ct := (CommandTimeout.expire cC1b.ct 6).2 }
        6 (Event.CommandTimeoutMsg 0)) 0) := by decide

theorem get_process_state_entry (m : StateMachineInternal) (h : Int) :
    (entry_or_new m h).state = get_process_state m h := by
  unfold entry_or_new get_process_state
  cases mapGet m.state h <;> simp [AdapterState.new]

theorem InvAt_frame (c : Combined) (sm' : StateMachineInternal)
    (ct' : CommandTimeout) (h : Int)
    (hs : get_process_state sm' h = get_process_state c.sm h)
    (hb : hmGet ct'.per_hci_timeout h = hmGet c.ct.per_hci_timeout h)
    (hinv : InvAt c h) : InvAt { sm := sm', ct := ct' } h := by
  unfold InvAt at *
  rw [hs, hb]
  exact hinv

theorem InvAt_intro (sm' : StateMachineInternal) (ct' : CommandTimeout)
    (h : Int) (s : ProcessState) (b : Bool)
    (hs : get_process_state sm' h = s)
    (hb : (hmGet ct'.per_hci_timeout h).isSome = b)
    (hsb : (s = ProcessState.TurningOn ∨ s = ProcessState.TurningOff) ↔
      b = true) : InvAt { sm := sm', ct := ct' } h := by
  unfold InvAt
  rw [hs, hb]
  exact hsb

theorem get_process_state_modify_present (m : StateMachineInternal) (i : Int)
    (p : Bool) (h : Int) :
    get_process_state (modify_state m i (fun a => { a with present := p })) h =
      get_process_state m h := by
  rw [get_process_state_modify]
  by_cases hh : h = i
  · rw [if_pos hh, hh]
    exact get_process_state_entry m i
  · rw [if_neg hh]

theorem InvAt_any_change (m2 : StateMachineInternal) (ct : CommandTimeout)
    (ch : AdapterChangeAction) (h : Int)
    (hcore : InvAt { sm := m2, ct := ct } h) :
    InvAt { sm := match ch with
      | AdapterChangeAction.NewDefaultAdapter n =>
        { m2 with default_adapter := n }
      | AdapterChangeAction.DoNothing => m2, ct := ct } h := by
  cases ch with
  | DoNothing => exact hcore
  | NewDefaultAdapter n => exact InvAt_frame ⟨m2, ct⟩ _ _ h rfl rfl hcore

/-- Claim C1 (amended): between event-loop turns, the biconditional
"state ∈ {TurningOn, TurningOff} iff CommandTimeout has an entry" is
preserved at every HCI index by every event EXCEPT two paths: (1) a
presence event that transitions an Off, config-enabled adapter to
TurningOn leaves it TurningOn with no entry (the ResetTimer returned by
the inner `action_start_bluetooth` call is discarded and the mainloop's
presence arm never touches the timer), and (2) a command timeout handled
while TurningOn with floss enabled and config disabled leaves the adapter
TurningOn with no entry (the handler's catch-all returns Noop). For a
command-timeout message the entry for the affected HCI has already been
removed by `expire` (hypothesis `hmGet … = none`), and the handler
re-establishes the biconditional there in every non-excluded case. -/
theorem C1_invariant_thm (c : Combined) (now : Nat) (e : Event) (h : Int)
    (hpre : match e with
      | Event.HciDevicePresence i p => ¬ presence_starts_adapter c.sm i p
      | Event.CommandTimeoutMsg i =>
        hmGet c.ct.per_hci_timeout i = none ∧ ¬ timeout_noop_turning_on c.sm i
      | _ => True)
    (hinv : match e with
      | Event.CommandTimeoutMsg i => ¬ i = h → InvAt c h
      | _ => InvAt c h) :
    InvAt (step c now e) h := by
  cases e with
  | StartBluetooth i =>
    have hinv' : InvAt c h := hinv
    simp only [step]
    by_cases hcond : ((get_process_state c.sm i = ProcessState.Off ∨
        get_process_state c.sm i = ProcessState.TurningOn) ∧
        present_of c.sm i = true ∧ c.sm.floss_enabled = true)
    · simp only [action_start_bluetooth, if_pos hcond,
        CommandTimeout.handle_timeout_action]
      by_cases hh : h = i
      · subst hh
        refine InvAt_intro _ _ _ ProcessState.TurningOn true ?_ ?_ (by decide)
        · rw [get_process_state_modify, if_pos rfl]
        · rw [hmGet_set_next, if_pos rfl]
          rfl
      · refine InvAt_frame c _ _ h ?_ ?_ hinv'
        · rw [get_process_state_modify, if_neg hh]
        · rw [hmGet_set_next, if_neg hh]
    · simp only [action_start_bluetooth, if_neg hcond,
        CommandTimeout.handle_timeout_action]
      exact hinv'
  | StopBluetooth i =>
    have hinv' : InvAt c h := hinv
    simp only [step, action_stop_bluetooth]
    by_cases hknown : ¬ (is_known c.sm i = true)
    · rw [if_pos hknown]
      simp only [CommandTimeout.handle_timeout_action]
      exact hinv'
    · rw [if_neg hknown]
      cases hgs : get_process_state c.sm i with
      | On =>
        simp only [CommandTimeout.handle_timeout_action]
        by_cases hh : h = i
        · subst hh
          refine InvAt_intro _ _ _ ProcessState.TurningOff true ?_ ?_ (by decide)
          · rw [get_process_state_modify, if_pos rfl]
          · rw [hmGet_set_next, if_pos rfl]
            rfl
        · refine InvAt_frame c _ _ h ?_ ?_ hinv'
          · rw [get_process_state_modify, if_neg hh]
          · rw [hmGet_set_next, if_neg hh]
      | TurningOn =>
        simp only [CommandTimeout.handle_timeout_action]
        by_cases hh : h = i
        · subst hh
          refine InvAt_intro _ _ _ ProcessState.Off false ?_ ?_ (by decide)
          · rw [get_process_state_modify, if_pos rfl]
          · rw [hmGet_cancel, if_pos rfl]
            rfl
        · refine InvAt_frame c _ _ h ?_ ?_ hinv'
          · rw [get_process_state_modify, if_neg hh]
          · rw [hmGet_cancel, if_neg hh]
      | Off =>
        simp only [CommandTimeout.handle_timeout_action]
        exact hinv'
      | TurningOff =>
        simp only [CommandTimeout.handle_timeout_action]
        exact hinv'
  | BluetoothStarted pid i =>
    have hinv' : InvAt c h := hinv
    simp only [step, action_on_bluetooth_started,
      CommandTimeout.handle_timeout_action]
    by_cases hh : h = i
    · subst hh
      refine InvAt_intro _ _ _ ProcessState.On false ?_ ?_ (by decide)
      · rw [get_process_state_modify, if_pos rfl]
      · rw [hmGet_cancel, if_pos rfl]
        rfl
    · refine InvAt_frame c _ _ h ?_ ?_ hinv'
      · rw [get_process_state_modify, if_neg hh]
        by_cases hk : is_known c.sm i = true
        · rw [if_pos hk]
        · rw [if_neg hk, get_process_state_modify, if_neg hh]
      · rw [hmGet_cancel, if_neg hh]
  | BluetoothStopped i =>
    have hinv' : InvAt c h := hinv
    simp only [step, action_on_bluetooth_stopped]
    cases hgs : get_process_state c.sm i with
    | TurningOff =>
      simp only [CommandTimeout.handle_timeout_action]
      by_cases hh : h = i
      · subst hh
        refine InvAt_intro _ _ _ ProcessState.Off false ?_ ?_ (by decide)
        · rw [get_process_state_modify, if_pos rfl]
        · rw [hmGet_cancel, if_pos rfl]
          rfl
      · refine InvAt_frame c _ _ h ?_ ?_ hinv'
        · rw [get_process_state_modify, if_neg hh]
        · rw [hmGet_cancel, if_neg hh]
    | On =>
      by_cases hfc : (c.sm.floss_enabled = true ∧
          config_enabled_of c.sm i = true)
      · rw [if_pos hfc]
        by_cases hge : restart_count_of c.sm i ≥ RESET_ON_RESTART_COUNT
        · rw [if_pos hge]
          simp only [CommandTimeout.handle_timeout_action]
          by_cases hh : h = i
          · subst hh
            refine InvAt_intro _ _ _ ProcessState.Off false ?_ ?_ (by decide)
            · rw [get_process_state_modify, if_pos rfl]
            · rw [hmGet_cancel, if_pos rfl]
              rfl
          · refine InvAt_frame c _ _ h ?_ ?_ hinv'
            · rw [get_process_state_modify, if_neg hh]
            · rw [hmGet_cancel, if_neg hh]
        · rw [if_neg hge]
          simp only [CommandTimeout.handle_timeout_action]
          by_cases hh : h = i
          · subst hh
            refine InvAt_intro _ _ _ ProcessState.TurningOn true ?_ ?_ (by decide)
            · rw [get_process_state_modify, if_pos rfl]
            · rw [hmGet_set_next, if_pos rfl]
              rfl
          · refine InvAt_frame c _ _ h ?_ ?_ hinv'
            · rw [get_process_state_modify, if_neg hh]
            · rw [hmGet_set_next, if_neg hh]
      · rw [if_neg hfc]
        simp only [CommandTimeout.handle_timeout_action]
        by_cases hh : h = i
        · subst hh
          refine InvAt_intro _ _ _ ProcessState.Off false ?_ ?_ (by decide)
          · rw [get_process_state_modify, if_pos rfl]
          · rw [hmGet_cancel, if_pos rfl]
            rfl
        · refine InvAt_frame c _ _ h ?_ ?_ hinv'
          · rw [get_process_state_modify, if_neg hh]
          · rw [hmGet_cancel, if_neg hh]
    | Off =>
      simp only [CommandTimeout.handle_timeout_action]
      by_cases hh : h = i
      · subst hh
        refine InvAt_intro _ _ _ ProcessState.Off false ?_ ?_ (by decide)
        · rw [get_process_state_modify, if_pos rfl]
        · rw [hmGet_cancel, if_pos rfl]
          rfl
      · refine InvAt_frame c _ _ h ?_ ?_ hinv'
        · rw [get_process_state_modify, if_neg hh]
        · rw [hmGet_cancel, if_neg hh]
    | TurningOn =>
      simp only [CommandTimeout.handle_timeout_action]
      by_cases hh : h = i
      · subst hh
        refine InvAt_intro _ _ _ ProcessState.Off false ?_ ?_ (by decide)
        · rw [get_process_state_modify, if_pos rfl]
        · rw [hmGet_cancel, if_pos rfl]
          rfl
      · refine InvAt_frame c _ _ h ?_ ?_ hinv'
        · rw [get_process_state_modify, if_neg hh]
        · rw [hmGet_cancel, if_neg hh]
  | CommandTimeoutMsg i =>
    obtain ⟨hnone, hnoop⟩ := hpre
    simp only [step, action_on_command_timeout]
    by_cases hh : h = i
    · subst hh
      cases hgs : get_process_state c.sm h with
      | TurningOn =>
        by_cases hfl : ¬ (c.sm.floss_enabled = true)
        · rw [if_pos hfl]
          refine InvAt_intro _ _ _ ProcessState.Off false ?_ ?_ (by decide)
          · rw [get_process_state_modify, if_pos rfl]
          · rw [hnone]
            rfl
        · rw [if_neg hfl]
          by_cases hcfg : config_enabled_of c.sm h = true
          · rw [if_pos hcfg]
            by_cases hge : restart_count_of c.sm h ≥ RESET_ON_RESTART_COUNT
            · rw [if_pos hge]
              refine InvAt_intro _ _ _ ProcessState.Off false ?_ ?_ (by decide)
              · rw [get_process_state_modify, if_pos rfl]
              · rw [hnone]
                rfl
            · rw [if_neg hge]
              refine InvAt_intro _ _ _ ProcessState.TurningOn true ?_ ?_ (by decide)
              · rw [get_process_state_modify, if_pos rfl]
              · rw [hmGet_set_next, if_pos rfl]
                rfl
          · rw [if_neg hcfg]
            exact absurd ⟨hgs, not_not.mp hfl,
              Bool.eq_false_iff.mpr hcfg⟩ hnoop
      | TurningOff =>
        refine InvAt_intro _ _ _ ProcessState.TurningOff true hgs ?_ (by decide)
        rw [hmGet_set_next, if_pos rfl]
        rfl
      | Off =>
        refine InvAt_intro _ _ _ ProcessState.Off false hgs ?_ (by decide)
        rw [hnone]
        rfl
      | On =>
        refine InvAt_intro _ _ _ ProcessState.On false hgs ?_ (by decide)
        rw [hnone]
        rfl
    · have hinv' : InvAt c h := hinv (fun he => hh he.symm)
      cases hgs : get_process_state c.sm i with
      | TurningOn =>
        by_cases hfl : ¬ (c.sm.floss_enabled = true)
        · rw [if_pos hfl]
          refine InvAt_frame c _ _ h ?_ rfl hinv'
          rw [get_process_state_modify, if_neg hh]
        · rw [if_neg hfl]
          by_cases hcfg : config_enabled_of c.sm i = true
          · rw [if_pos hcfg]
            by_cases hge : restart_count_of c.sm i ≥ RESET_ON_RESTART_COUNT
            · rw [if_pos hge]
              refine InvAt_frame c _ _ h ?_ rfl hinv'
              rw [get_process_state_modify, if_neg hh]
            · rw [if_neg hge]
              refine InvAt_frame c _ _ h ?_ ?_ hinv'
              · rw [get_process_state_modify, if_neg hh]
              · rw [hmGet_set_next, if_neg hh]
          · rw [if_neg hcfg]
            exact hinv'
      | TurningOff =>
        refine InvAt_frame c _ _ h rfl ?_ hinv'
        rw [hmGet_set_next, if_neg hh]
      | Off => exact hinv'
      | On => exact hinv'
  | HciDevicePresence i p =>
    have hinv' : InvAt c h := hinv
    simp only [step, action_on_hci_presence_changed]
    by_cases hp : present_of c.sm i = p
    · rw [if_pos hp]
      exact hinv'
    · rw [if_neg hp]
      apply InvAt_any_change
      cases hget : mapGet (modify_state c.sm i
          (fun a => { a with present := p })).state i with
      | none =>
        simp only [hget, Option.map_none']
        exact InvAt_frame c _ _ h
          (get_process_state_modify_present c.sm i p h) rfl hinv'
      | some a =>
        simp only [hget, Option.map_some']
        cases hs : a.state <;> cases hc : a.config_enabled
        · exact InvAt_frame c _ _ h
            (get_process_state_modify_present c.sm i p h) rfl hinv'
        ·
          by_cases hfp : ((modify_state c.sm i
              (fun a => { a with present := p })).floss_enabled = true ∧ p = true)
          · rw [if_pos hfp]
            exfalso
            apply hpre
            rw [mapGet_modify_state, if_pos rfl] at hget
            rw [Option.some.injEq] at hget
            cases horig : mapGet c.sm.state i with
            | none =>
              have hent : entry_or_new c.sm i = AdapterState.new i := by
                rw [entry_or_new, horig]
                rfl
              rw [← hget, hent] at hc
              simp [AdapterState.new] at hc
            | some orig =>
              have hent : entry_or_new c.sm i = orig := by
                rw [entry_or_new, horig]
                rfl
              refine ⟨hfp.2, hfp.1, orig, horig, ?_, ?_, ?_⟩
              · rw [hfp.2] at hp
                have hpres : present_of c.sm i = orig.present := by
                  rw [present_of, horig]
                  rfl
                rw [hpres] at hp
                exact Bool.eq_false_iff.mpr hp
              · rw [← hget, hent] at hs
                exact hs
              · rw [← hget, hent] at hc
                exact hc
          · rw [if_neg hfp]
            exact InvAt_frame c _ _ h
              (get_process_state_modify_present c.sm i p h) rfl hinv'
        all_goals
          exact InvAt_frame c _ _ h
            (get_process_state_modify_present c.sm i p h) rfl hinv'
  | SetDesiredDefaultAdapter i =>
    have hinv' : InvAt c h := hinv
    simp only [step, set_desired_default_adapter]
    by_cases hcond : (c.sm.default_adapter ≠ i ∧
        present_of { c.sm with desired_adapter := i } i = true)
    · rw [if_pos hcond]
      exact InvAt_frame c _ _ h rfl rfl hinv'
    · rw [if_neg hcond]
      exact InvAt_frame c _ _ h rfl rfl hinv'

/-- Witness for C1 at a concrete machine and a `StartBluetooth` event. -/
theorem C1_invariant_witness : InvAt (step cC1a 0 (Event.StartBluetooth 0)) 0 :=
  C1_invariant_thm cC1a 0 (Event.StartBluetooth 0) 0 True.intro (by decide)
